import Mathlib

/-!  Verification development for the transaction-investigation pipeline of
`investigate_stream.py`: the response parser (`extract_section`), the reply
normalization (`str.replace` chains), the prompt builder (`PromptTemplate`),
and the single/batch orchestration loops.  Character-level matching models
ASCII case folding, which is what the Python regex flags exercise on the
ASCII label tokens and replies considered here. -/

namespace OpsAgent

/-- ASCII uppercase test (codes 65..90), the range `A`-`Z`. -/
def upA (c : Char) : Bool := 65 ≤ c.toNat && c.toNat ≤ 90

/-- Characters matched by the character class `[A-Z]` under `re.IGNORECASE`:
any ASCII letter, upper or lower case. -/
def isLetterAZ (c : Char) : Bool :=
  (65 ≤ c.toNat && c.toNat ≤ 90) || (97 ≤ c.toNat && c.toNat ≤ 122)

/-- ASCII case-insensitive character comparison, as `re.IGNORECASE` applies
to the literal characters of the label pattern. -/
def ciEq (a b : Char) : Bool :=
  a == b || (upA a && (b.toNat == a.toNat + 32)) || (upA b && (a.toNat == b.toNat + 32))

/-- Case-insensitive "is `f` a prefix of `t`" on character lists. -/
def ciPrefixB : List Char → List Char → Bool
  | [], _ => true
  | _ :: _, [] => false
  | a :: f, b :: t => ciEq a b && ciPrefixB f t

/-- Leftmost case-insensitive occurrence of `f` in `t`; returns the suffix of
`t` that starts right after that occurrence (the behaviour of `re.search` on
the literal pattern `f`). -/
def findFrom (f : List Char) : List Char → Option (List Char)
  | [] => if ciPrefixB f [] then some [] else none
  | c :: t =>
    if ciPrefixB f (c :: t) then some (List.drop f.length (c :: t)) else findFrom f t

/-- Positions where the lookahead `(?=\n[A-Z]|$)` of `extract_section`
succeeds, expressed on the remaining suffix of the text: end of text, a lone
trailing newline (where `$` matches without `re.MULTILINE`), or a newline
followed by an ASCII letter (`[A-Z]` under `re.IGNORECASE`). -/
def boundaryAt (t : List Char) : Bool :=
  match t with
  | [] => true
  | a :: rest => a == '\n' && (rest.isEmpty || isLetterAZ (rest.headD ' '))

/-- Lazy capture of `(.*?)` under `re.DOTALL`: consume characters up to the
first position where the lookahead succeeds. -/
def captureUntilBoundary : List Char → List Char
  | [] => []
  | c :: t => if boundaryAt (c :: t) then [] else c :: captureUntilBoundary t

/-- ASCII whitespace stripped by Python `str.strip()` on the replies
considered here. -/
def isPySpace (c : Char) : Bool :=
  c == ' ' || c == '\t' || c == '\n' || c == '\r' || c.toNat == 11 || c.toNat == 12

/-- Python `str.strip()`: drop whitespace from both ends. -/
def pyStrip (s : List Char) : List Char :=
  ((s.dropWhile isPySpace).reverse.dropWhile isPySpace).reverse

/-- Model of `extract_section(label, text)` from `investigate_stream.py`: a
DOTALL, IGNORECASE search for the label followed by a colon, then a lazy
capture of everything up to a lookahead of newline-then-letter or
end-of-text, returning the stripped first group when a match exists and a
dash placeholder otherwise. -/
def extract_section (label text : String) : String :=
  match findFrom (label.data ++ [':']) text.data with
  | none => "-"
  | some rest => ⟨pyStrip (captureUntilBoundary rest)⟩

/-- Case-sensitive occurrence test: does `f` occur as a contiguous substring
of `t`?  This is the notion `str.replace` acts on. -/
def occursB (f : List Char) : List Char → Bool
  | [] => f.isEmpty
  | c :: t => List.isPrefixOf f (c :: t) || occursB f t

/-- Case-insensitive occurrence test, the notion `re.search` with
`re.IGNORECASE` acts on. -/
def ciOccursB (f : List Char) : List Char → Bool
  | [] => ciPrefixB f []
  | c :: t => ciPrefixB f (c :: t) || ciOccursB f t

/-- Number of positions of `t` at which `f` occurs ("contains `f` exactly n
times"). -/
def countOcc (f : List Char) : List Char → Nat
  | [] => 0
  | c :: t => (if List.isPrefixOf f (c :: t) then 1 else 0) + countOcc f t

/-- Scanner for Python `str.replace(find, repl)`: at skip state `0`, a
position where `find` is a prefix emits `repl` and enters skip state
`find.length - 1` (the rest of the matched occurrence is consumed, so
occurrences never overlap); any other position is copied.  Structural in the
text so that it evaluates in the kernel. -/
def pyReplaceGo (find repl : List Char) : Nat → List Char → List Char
  | _, [] => []
  | Nat.succ s, _ :: rest => pyReplaceGo find repl s rest
  | 0, c :: rest =>
    if List.isPrefixOf find (c :: rest) then
      repl ++ pyReplaceGo find repl (find.length - 1) rest
    else
      c :: pyReplaceGo find repl 0 rest

/-- Python `str.replace(find, repl)` on character lists: replace every
non-overlapping occurrence, scanning left to right.  (Never called with an
empty `find` by the program.) -/
def pyReplace (find repl t : List Char) : List Char :=
  pyReplaceGo find repl 0 t

/-- Python `s.replace(find, repl)` at `String` level. -/
def pyReplaceStr (s find repl : String) : String :=
  ⟨pyReplace find.data repl.data s.data⟩

/-- Reply normalization applied before extraction (lines 135-137 and 231-233
of the source): strip code fences, then the `output:` preamble, then the
`Here is the solution:` preamble. -/
def normalizeReply (s : String) : String :=
  pyReplaceStr (pyReplaceStr (pyReplaceStr s "```" "") "output:" "") "Here is the solution:" ""

/-- Normalization of the captured records text before `ast.literal_eval`
(lines 167 and 280 of the source): `records_str.replace("nan", "None")`. -/
def normRecords (s : String) : String :=
  pyReplaceStr s "nan" "None"

/-- Evidence-bundle slot for one optional ledger row: the row's string
rendering when present, the literal `"N/A"` marker when absent (the
`str(row[0]) if row else "N/A"` arguments of `chain.invoke`). -/
def evidenceArg : Option String → String
  | some r => r
  | none => "N/A"

/-- Prompt text produced by the `PromptTemplate` of the source for one
transaction, with the five input variables substituted.  `{{}}` in the
template renders as a literal brace pair. -/
def prompt_text (txn cbs mpesa switch disb : String) : String :=
  "\nYou are a banking operations assistant. A user has submitted an unmatched transaction that needs investigation.\n\nTransaction ID: " ++ txn ++
  "\n\nCBS:\n" ++ cbs ++
  "\n\nM-Pesa:\n" ++ mpesa ++
  "\n\nSwitch Logs:\n" ++ switch ++
  "\n\nDisbursement API:\n" ++ disb ++
  "\n\n\nCBS is the main system where the reconcilling error or was discovered. Interogate the other systems i.e. M-Pesa, Switch Logs and Disbursement API then \nreturn very very brief and concise results with the following format:\nroot_cause: Identify the likely root cause for the unmatched transaction \nconfidence_score: Add a short confidence score (as a percentage) at the end, indicating how confident you are in your conclusion\nnext_steps:  Recommend next steps to complete the transaction\nsummary_report: short summary on how the transaction moved in the systems what contributed most to your conclusion\nrecords: return all records system and the records in json wrapped in \x7b\x7d\n\ndo not output python code\n\n"

/-- Investigation Result row appended to `results` for one transaction. -/
structure InvResult where
  txn_id : String
  root_cause : String
  confidence_score : String
  next_steps : String
  summary_report : String
  records : String
deriving Repr, DecidableEq

/-- Parsing of one raw reply into an Investigation Result (lines 231-248 of
the source): normalize the reply, then extract the five labelled sections. -/
def mkResult (txn raw : String) : InvResult :=
  let output := normalizeReply raw
  { txn_id := txn
    root_cause := extract_section "root_cause" output
    confidence_score := extract_section "confidence_score" output
    next_steps := extract_section "next_steps" output
    summary_report := extract_section "summary_report" output
    records := extract_section "records" output }

/-- External collaborators of one investigation: the four ledger lookups
(`get_row` on each table, rendered with `str`) and the narrative generation
client (`chain.invoke`), which either returns a reply or raises. -/
structure Env where
  cbsLookup : String → Option String
  mpesaLookup : String → Option String
  switchLookup : String → Option String
  disbLookup : String → Option String
  generate : String → Except String String

/-- Prompt submitted for a transaction whose CBS row is `cbsRow`: the other
three slots default to `"N/A"` when their lookup has no match. -/
def promptOf (env : Env) (txn cbsRow : String) : String :=
  prompt_text txn cbsRow (evidenceArg (env.mpesaLookup txn))
    (evidenceArg (env.switchLookup txn)) (evidenceArg (env.disbLookup txn))

/-- Visible outcome of one iteration of the batch loop (tab2, lines
207-252): the "not found" error, the generation-error report, or a parsed
result appended to `results`. -/
inductive RowOutcome where
  | notFound : RowOutcome
  | genFailed : String → RowOutcome
  | success : InvResult → RowOutcome
deriving Repr, DecidableEq

/-- Single batch-loop iteration for one transaction id, paired with the
number of generation calls it performs. -/
def processTxn (env : Env) (txn : String) : RowOutcome × Nat :=
  match env.cbsLookup txn with
  | none => (RowOutcome.notFound, 0)
  | some cbsRow =>
    match env.generate (promptOf env txn cbsRow) with
    | Except.error e => (RowOutcome.genFailed e, 1)
    | Except.ok raw => (RowOutcome.success (mkResult txn raw), 1)

/-- Ordered stream of per-transaction outcomes of the batch loop. -/
def processBatch (env : Env) (ids : List String) : List RowOutcome :=
  ids.map (fun t => (processTxn env t).fst)

/-- Total number of generation calls the batch loop performs. -/
def batchCalls (env : Env) (ids : List String) : Nat :=
  (ids.map (fun t => (processTxn env t).snd)).sum

/-- Outcome of the single-transaction path (tab1, lines 114-185), paired
with the number of generation calls.  The whole body — generation,
extraction, and the `ast.literal_eval` of the records section — sits inside
one `try`, whose handler shows "Investigation failed."; `evalLit` stands for
`ast.literal_eval`, returning the parsed (system, record) pairs or `none`
when it raises. -/
inductive SingleOutcome where
  | notFound : SingleOutcome
  | failed : String → SingleOutcome
  | shown : InvResult → List (String × String) → SingleOutcome
deriving Repr, DecidableEq

/-- Model of the tab1 single-transaction investigation. -/
def processSingle (env : Env) (evalLit : String → Option (List (String × String)))
    (txn : String) : SingleOutcome × Nat :=
  match env.cbsLookup txn with
  | none => (SingleOutcome.notFound, 0)
  | some cbsRow =>
    match env.generate (promptOf env txn cbsRow) with
    | Except.error e => (SingleOutcome.failed e, 1)
    | Except.ok raw =>
      let res := mkResult txn raw
      match evalLit (normRecords res.records) with
      | none => (SingleOutcome.failed "literal_eval raised", 1)
      | some d => (SingleOutcome.shown res d, 1)

/-- Uploaded batch file after `pd.read_csv`: its column names and the values
of its rows in the transaction-id column. -/
structure UploadTable where
  cols : List String
  rows : List String

/-- Events the batch tab emits to the page, in order. -/
inductive Ev where
  | procNotFound : Ev
  | procGenError : String → Ev
  | header : Ev
  | fullRow : InvResult → List (String × String) → Ev
  | partialRow : InvResult → Ev
  | batchError : Ev
  | inputError : Ev
deriving Repr, DecidableEq

/-- Display loop over the collected results (tab2, lines 268-292).  Each
row first renders its summary columns, then parses its records section with
`ast.literal_eval`; that call is NOT inside a per-row handler, so a parse
failure escapes to the outer `except` (line 295): the crashing row has shown
only its summary part, a single batch-level error is shown, and no later row
is rendered. -/
def displayRows (evalLit : String → Option (List (String × String))) :
    List InvResult → List Ev
  | [] => []
  | r :: rs =>
    match evalLit (normRecords r.records) with
    | some d => Ev.fullRow r d :: displayRows evalLit rs
    | none => [Ev.partialRow r, Ev.batchError]

/-- Results collected by the batch loop (the `results` list: successes
only). -/
def successResults (outs : List RowOutcome) : List InvResult :=
  outs.filterMap (fun o =>
    match o with
    | RowOutcome.success r => some r
    | _ => none)

/-- Error events the batch loop shows while iterating. -/
def procEvents (outs : List RowOutcome) : List Ev :=
  outs.filterMap (fun o =>
    match o with
    | RowOutcome.notFound => some Ev.procNotFound
    | RowOutcome.genFailed e => some (Ev.procGenError e)
    | RowOutcome.success _ => none)

/-- Model of the whole batch tab (tab2, lines 198-297) on an uploaded
table: fatal input error when the `txn_id` column is missing, otherwise the
loop's error events followed by the summary table of collected results. -/
def tab2Run (env : Env) (evalLit : String → Option (List (String × String)))
    (tbl : UploadTable) : List Ev :=
  if "txn_id" ∈ tbl.cols then
    let outs := processBatch env tbl.rows
    procEvents outs ++
      (if (successResults outs).isEmpty then []
       else Ev.header :: displayRows evalLit (successResults outs))
  else [Ev.inputError]

/-- Generation calls performed by the whole batch tab. -/
def tab2Calls (env : Env) (tbl : UploadTable) : Nat :=
  if "txn_id" ∈ tbl.cols then batchCalls env tbl.rows else 0

/-- Label token of the first reply section, with its colon. -/
def rcL : List Char := "root_cause:".data

/-- Label token of the second reply section, with its colon. -/
def csL : List Char := "confidence_score:".data

/-- Label token of the third reply section, with its colon. -/
def nsL : List Char := "next_steps:".data

/-- Label token of the fourth reply section, with its colon. -/
def srL : List Char := "summary_report:".data

/-- Label token of the fifth reply section, with its colon. -/
def reL : List Char := "records:".data

/-- Reply in the shape the prompt requests: the five labelled sections in
order, one per line, with an optional tail after the last section.  The
nesting mirrors how the matcher walks the text. -/
def mkReplyT (s1 s2 s3 s4 s5 tail : List Char) : List Char :=
  rcL ++ (s1 ++ '\n' :: (csL ++ (s2 ++ '\n' :: (nsL ++ (s3 ++ '\n' ::
    (srL ++ (s4 ++ '\n' :: (reL ++ (s5 ++ tail)))))))))

/-- Well-formed five-section reply text. -/
def mkReplyStr (s1 s2 s3 s4 s5 : List Char) : String :=
  ⟨mkReplyT s1 s2 s3 s4 s5 []⟩

/-- Reply text with the `next_steps` section omitted entirely. -/
def mkReplyNoNsStr (s1 s2 s4 s5 : List Char) : String :=
  ⟨rcL ++ (s1 ++ '\n' :: (csL ++ (s2 ++ '\n' :: (srL ++ (s4 ++ '\n' ::
    (reL ++ s5))))))⟩

/-- Section body fit for one line of a reply: it contains no newline (code
10, so the section really is one line) and no colon (code 58, so it cannot
shadow a label token or a noise-marker phrase). -/
def bodyOK (s : List Char) : Prop := ∀ c ∈ s, c.toNat ≠ 10 ∧ c.toNat ≠ 58

/-- Section body confined to one line: no newline (code 10). -/
def lineOK (s : List Char) : Prop := ∀ c ∈ s, c.toNat ≠ 10

/-- Section body free of backticks (code 96), so code-fence stripping cannot
touch it. -/
def tickFree (s : List Char) : Prop := ∀ c ∈ s, c.toNat ≠ 96

instance (s : List Char) : Decidable (bodyOK s) := by unfold bodyOK; infer_instance

instance (s : List Char) : Decidable (lineOK s) := by unfold lineOK; infer_instance

instance (s : List Char) : Decidable (tickFree s) := by unfold tickFree; infer_instance

/-- Raw reply wrapped in the known noise markers: the `output:` preamble,
the `Here is the solution:` preamble, and a code fence around the body. -/
def wrapNoise (r : String) : String :=
  "output:\nHere is the solution:\n```\n" ++ r ++ "\n```"

/-- Case-insensitive equality of two character lists. -/
def ciListEq : List Char → List Char → Bool
  | [], [] => true
  | a :: f, b :: t => ciEq a b && ciListEq f t
  | _, _ => false

deriving instance DecidableEq for Except

/-- Reply used by the concrete batch scenario below. -/
def replyC1 : String :=
  "root_cause: a\nconfidence_score: b\nnext_steps: c\nsummary_report: d\nrecords: e"

/-- Concrete environment for the batch failure-isolation scenario: every
transaction has a CBS row and no other ledger rows; the generation client
fails exactly on the prompt built for transaction `"T2"`. -/
def envC1 : Env :=
  { cbsLookup := fun t => some ("row " ++ t)
    mpesaLookup := fun _ => none
    switchLookup := fun _ => none
    disbLookup := fun _ => none
    generate := fun p =>
      if p = prompt_text "T2" "row T2" "N/A" "N/A" "N/A" then
        Except.error "generation boom"
      else Except.ok replyC1 }

/-- Concrete environment for the records-parse-failure scenario: both
transactions have CBS rows and generate successfully, but the reply for
`"T1"` carries a records section that is not a parsable literal. -/
def envC5 : Env :=
  { cbsLookup := fun t => some t
    mpesaLookup := fun _ => none
    switchLookup := fun _ => none
    disbLookup := fun _ => none
    generate := fun p =>
      if p = prompt_text "T1" "T1" "N/A" "N/A" "N/A" then
        Except.ok "root_cause: a\nconfidence_score: b\nnext_steps: c\nsummary_report: d\nrecords: oops["
      else
        Except.ok "root_cause: a\nconfidence_score: b\nnext_steps: c\nsummary_report: d\nrecords: \x7b\x7d" }

/-- Stub for `ast.literal_eval` in the records-parse-failure scenario: it
parses the empty mapping literal and raises on anything else. -/
def evalLitC5 : String → Option (List (String × String)) := fun s =>
  if s = "\x7b\x7d" then some [] else none

/-! ### Character-level facts -/

/-- Characters with distinct codes are never case-insensitively equal to a
non-letter: specialisation to a newline on the right. -/
theorem ciEq_right_nl (a c : Char) (ha : a.toNat ≠ 10) (hc : c.toNat = 10) :
    ciEq a c = false := by
  apply Bool.eq_false_iff.mpr
  intro hx
  simp only [ciEq, upA, Bool.or_eq_true, Bool.and_eq_true, beq_iff_eq,
    decide_eq_true_eq] at hx
  rcases hx with (h | h) | h
  · exact ha (h ▸ hc)
  · omega
  · omega

/-- A colon on the left of `ciEq` matches only a colon. -/
theorem ciEq_colon_left (b : Char) (hb : b.toNat ≠ 58) : ciEq ':' b = false := by
  apply Bool.eq_false_iff.mpr
  intro hx
  have hcn : (':').toNat = 58 := rfl
  simp only [ciEq, upA, Bool.or_eq_true, Bool.and_eq_true, beq_iff_eq,
    decide_eq_true_eq] at hx
  rcases hx with (h | h) | h
  · exact hb (h ▸ hcn)
  · omega
  · omega

/-- A colon on the right of `ciEq` matches only a colon. -/
theorem ciEq_colon_right (a : Char) (ha : a.toNat ≠ 58) : ciEq a ':' = false := by
  apply Bool.eq_false_iff.mpr
  intro hx
  have hcn : (':').toNat = 58 := rfl
  simp only [ciEq, upA, Bool.or_eq_true, Bool.and_eq_true, beq_iff_eq,
    decide_eq_true_eq] at hx
  rcases hx with (h | h) | h
  · subst h
    exact ha rfl
  · omega
  · omega

/-- Case-sensitive `==` on characters transfers to codes. -/
theorem char_beq_eq_false (a b : Char) (h : a.toNat ≠ b.toNat) : (a == b) = false := by
  apply Bool.eq_false_iff.mpr
  intro hx
  exact h (congrArg Char.toNat (beq_iff_eq.mp hx))

/-! ### Locating a label: `findFrom` -/

/-- A pattern containing a colon never matches case-insensitively at the
start of `s ++ '\n' :: u` when `s` is colon-free and the pattern is
newline-free: the pattern's colon would have to fall on a character of `s`
or on the newline. -/
theorem ciPrefixB_false_of_colon : ∀ (lab s u : List Char), ':' ∈ lab →
    (∀ c ∈ lab, c.toNat ≠ 10) → (∀ c ∈ s, c.toNat ≠ 58) →
    ciPrefixB lab (s ++ '\n' :: u) = false
  | [], _, _, hc, _, _ => absurd hc (List.not_mem_nil ':')
  | a :: l, [], u, _, hnl, _ => by
    have h : ciEq a '\n' = false :=
      ciEq_right_nl a '\n' (hnl a (List.mem_cons_self a l)) rfl
    simp [ciPrefixB, h]
  | a :: l, b :: s', u, hc, hnl, hs => by
    rcases List.mem_cons.mp hc with h1 | h2
    · have h : ciEq a b = false :=
        h1 ▸ ciEq_colon_left b (hs b (List.mem_cons_self b s'))
      simp [ciPrefixB, h]
    · have h := ciPrefixB_false_of_colon l s' u h2
        (fun c hcl => hnl c (List.mem_cons_of_mem a hcl))
        (fun c hcs => hs c (List.mem_cons_of_mem b hcs))
      simp [ciPrefixB, h]

/-- A pattern containing a colon never matches case-insensitively at the
start of a colon-free text. -/
theorem ciPrefixB_false_of_colon_all : ∀ (lab t : List Char), ':' ∈ lab →
    (∀ c ∈ t, c.toNat ≠ 58) → ciPrefixB lab t = false
  | [], _, hc, _ => absurd hc (List.not_mem_nil ':')
  | _ :: _, [], _, _ => rfl
  | a :: l, b :: t', hc, ht => by
    rcases List.mem_cons.mp hc with h1 | h2
    · have h : ciEq a b = false :=
        h1 ▸ ciEq_colon_left b (ht b (List.mem_cons_self b t'))
      simp [ciPrefixB, h]
    · have h := ciPrefixB_false_of_colon_all l t' h2
        (fun c hct => ht c (List.mem_cons_of_mem b hct))
      simp [ciPrefixB, h]

/-- Searching for a label with a colon skips a colon-free body and the
newline that ends its line. -/
theorem findFrom_skip_body (lab : List Char) (hc : ':' ∈ lab)
    (hnl : ∀ c ∈ lab, c.toNat ≠ 10) :
    ∀ (s u : List Char), (∀ c ∈ s, c.toNat ≠ 58) →
      findFrom lab (s ++ '\n' :: u) = findFrom lab u
  | [], u, hs => by
    have h := ciPrefixB_false_of_colon lab [] u hc hnl hs
    simp only [List.nil_append] at h ⊢
    simp [findFrom, h]
  | b :: s', u, hs => by
    have h := ciPrefixB_false_of_colon lab (b :: s') u hc hnl hs
    simp only [List.cons_append] at h ⊢
    rw [findFrom, if_neg (by simp [h])]
    exact findFrom_skip_body lab hc hnl s' u
      (fun c hcs => hs c (List.mem_cons_of_mem b hcs))

/-- Searching for a label with a colon over an entirely colon-free text
finds nothing. -/
theorem findFrom_none_of_colon (lab : List Char) (hc : ':' ∈ lab) :
    ∀ t : List Char, (∀ c ∈ t, c.toNat ≠ 58) → findFrom lab t = none
  | [], _ => by
    have h := ciPrefixB_false_of_colon_all lab [] hc (by simp)
    simp [findFrom, h]
  | b :: t', ht => by
    have h := ciPrefixB_false_of_colon_all lab (b :: t') hc ht
    rw [findFrom, if_neg (by simp [h])]
    exact findFrom_none_of_colon lab hc t'
      (fun c hct => ht c (List.mem_cons_of_mem b hct))

/-- Searching for a newline-free label skips leading newlines. -/
theorem findFrom_skip_pad (lab : List Char) (hne : lab ≠ [])
    (hnl : ∀ c ∈ lab, c.toNat ≠ 10) :
    ∀ (pad t : List Char), (∀ c ∈ pad, c.toNat = 10) →
      findFrom lab (pad ++ t) = findFrom lab t
  | [], _, _ => by simp
  | p :: pad', t, hp => by
    obtain ⟨a, l, rfl⟩ : ∃ a l, lab = a :: l := by
      cases lab with
      | nil => exact absurd rfl hne
      | cons a l => exact ⟨a, l, rfl⟩
    have ha : ciEq a p = false :=
      ciEq_right_nl a p (hnl a (List.mem_cons_self a l))
        (hp p (List.mem_cons_self p pad'))
    rw [List.cons_append, findFrom, if_neg (by simp [ciPrefixB, ha])]
    exact findFrom_skip_pad (a :: l) hne hnl pad' t
      (fun c hcp => hp c (List.mem_cons_of_mem p hcp))

/-- A pattern always matches itself case-insensitively. -/
theorem ciPrefixB_self_append : ∀ (f r : List Char), ciPrefixB f (f ++ r) = true
  | [], _ => rfl
  | a :: f', r => by
    have h : ciEq a a = true := by simp [ciEq]
    simp [ciPrefixB, h, ciPrefixB_self_append f' r]

/-- Searching for a nonempty label at an exact occurrence returns the text
right after it. -/
theorem findFrom_self (lab r : List Char) (hne : lab ≠ []) :
    findFrom lab (lab ++ r) = some r := by
  obtain ⟨a, l, rfl⟩ : ∃ a l, lab = a :: l := by
    cases lab with
    | nil => exact absurd rfl hne
    | cons a l => exact ⟨a, l, rfl⟩
  have h : ciPrefixB (a :: l) (a :: (l ++ r)) = true := by
    rw [← List.cons_append]
    exact ciPrefixB_self_append _ _
  rw [List.cons_append, findFrom, if_pos (by simp [h])]
  rw [← List.cons_append, List.drop_left]

/-- Search misses iff no case-insensitive occurrence exists. -/
theorem findFrom_eq_none_iff (f : List Char) :
    ∀ t : List Char, findFrom f t = none ↔ ciOccursB f t = false
  | [] => by
    cases h : ciPrefixB f [] <;> simp [findFrom, ciOccursB, h]
  | c :: t => by
    cases h : ciPrefixB f (c :: t) <;>
      simp [findFrom, ciOccursB, h, findFrom_eq_none_iff f t]

/-! ### Capturing a section: `captureUntilBoundary` -/

/-- Lazy capture of a newline-free body stops exactly at the newline that
precedes a letter-initial line. -/
theorem capture_upto_letter : ∀ (s : List Char), (∀ c ∈ s, c.toNat ≠ 10) →
    ∀ (c : Char) (u : List Char), isLetterAZ c = true →
      captureUntilBoundary (s ++ '\n' :: c :: u) = s
  | [], _, c, u, hc => by
    simp [captureUntilBoundary, boundaryAt, hc]
  | b :: s', hs, c, u, hc => by
    have hb : (b == '\n') = false :=
      char_beq_eq_false b '\n' (hs b (List.mem_cons_self b s'))
    rw [List.cons_append, captureUntilBoundary,
      if_neg (by simp [boundaryAt, hb])]
    rw [capture_upto_letter s' (fun d hd => hs d (List.mem_cons_of_mem b hd)) c u hc]

/-- Lazy capture of a newline-free body at the end of the text (with or
without a final trailing newline, where `$` matches) captures the whole
body. -/
theorem capture_to_end : ∀ (s : List Char), (∀ c ∈ s, c.toNat ≠ 10) →
    ∀ tail : List Char, tail = [] ∨ tail = ['\n'] →
      captureUntilBoundary (s ++ tail) = s
  | [], _, _, ht => by
    rcases ht with rfl | rfl
    · rfl
    · rfl
  | b :: s', hs, tail, ht => by
    have hb : (b == '\n') = false :=
      char_beq_eq_false b '\n' (hs b (List.mem_cons_self b s'))
    rw [List.cons_append, captureUntilBoundary,
      if_neg (by simp [boundaryAt, hb])]
    rw [capture_to_end s' (fun d hd => hs d (List.mem_cons_of_mem b hd)) tail ht]

/-! ### Reducing `extract_section` -/

/-- Unfolding of `extract_section` at a successful search. -/
theorem extract_eq_of_find (label : String) (T rest : List Char)
    (h : findFrom (label.data ++ [':']) T = some rest) :
    extract_section label ⟨T⟩ = ⟨pyStrip (captureUntilBoundary rest)⟩ := by
  unfold extract_section
  rw [show (String.mk T).data = T from rfl, h]

/-- Unfolding of `extract_section` at a failed search. -/
theorem extract_eq_dash (label : String) (T : List Char)
    (h : findFrom (label.data ++ [':']) T = none) :
    extract_section label ⟨T⟩ = "-" := by
  unfold extract_section
  rw [show (String.mk T).data = T from rfl, h]

/-! ### Skipping one label header while searching for another one.
Each is definitional: the searched label mismatches at every position of the
skipped header. -/

theorem ffSkip_cs_rc (r : List Char) : findFrom csL (rcL ++ r) = findFrom csL r := rfl

theorem ffSkip_ns_rc (r : List Char) : findFrom nsL (rcL ++ r) = findFrom nsL r := rfl

theorem ffSkip_ns_cs (r : List Char) : findFrom nsL (csL ++ r) = findFrom nsL r := rfl

theorem ffSkip_ns_sr (r : List Char) : findFrom nsL (srL ++ r) = findFrom nsL r := rfl

theorem ffSkip_ns_re (r : List Char) : findFrom nsL (reL ++ r) = findFrom nsL r := rfl

theorem ffSkip_sr_rc (r : List Char) : findFrom srL (rcL ++ r) = findFrom srL r := rfl

theorem ffSkip_sr_cs (r : List Char) : findFrom srL (csL ++ r) = findFrom srL r := rfl

theorem ffSkip_sr_ns (r : List Char) : findFrom srL (nsL ++ r) = findFrom srL r := rfl

theorem ffSkip_re_rc (r : List Char) : findFrom reL (rcL ++ r) = findFrom reL r := rfl

theorem ffSkip_re_cs (r : List Char) : findFrom reL (csL ++ r) = findFrom reL r := rfl

theorem ffSkip_re_ns (r : List Char) : findFrom reL (nsL ++ r) = findFrom reL r := rfl

theorem ffSkip_re_sr (r : List Char) : findFrom reL (srL ++ r) = findFrom reL r := rfl

/-- Variant of `capture_upto_letter` whose following text is phrased as a
label list followed by more text. -/
theorem capture_upto_label (s : List Char) (hs : ∀ c ∈ s, c.toNat ≠ 10)
    {lab : List Char} {c : Char} {u : List Char} (rest2 : List Char)
    (hlab : lab = c :: u) (hc : isLetterAZ c = true) :
    captureUntilBoundary (s ++ '\n' :: (lab ++ rest2)) = s := by
  subst hlab
  exact capture_upto_letter s hs c (u ++ rest2) hc

/-! ### Extraction over a well-formed reply, section by section -/

/-- Extraction of `root_cause` from a (possibly newline-padded) well-formed
reply. -/
theorem extract_shape_rc (pad s1 s2 s3 s4 s5 tail : List Char)
    (hpad : ∀ c ∈ pad, c.toNat = 10) (h1 : lineOK s1) :
    extract_section "root_cause" ⟨pad ++ mkReplyT s1 s2 s3 s4 s5 tail⟩ =
      ⟨pyStrip s1⟩ := by
  have hfind : findFrom ("root_cause".data ++ [':'])
      (pad ++ mkReplyT s1 s2 s3 s4 s5 tail) =
      some (s1 ++ '\n' :: (csL ++ (s2 ++ '\n' :: (nsL ++ (s3 ++ '\n' ::
        (srL ++ (s4 ++ '\n' :: (reL ++ (s5 ++ tail))))))))) := by
    show findFrom rcL (pad ++ mkReplyT s1 s2 s3 s4 s5 tail) = _
    rw [findFrom_skip_pad rcL (by decide) (by decide) pad _ hpad]
    unfold mkReplyT
    exact findFrom_self rcL _ (by decide)
  rw [extract_eq_of_find "root_cause" _ _ hfind,
    capture_upto_label s1 h1 _ (show csL = 'c' :: "onfidence_score:".data from rfl) rfl]

/-- Extraction of `confidence_score` from a (possibly newline-padded)
well-formed reply. -/
theorem extract_shape_cs (pad s1 s2 s3 s4 s5 tail : List Char)
    (hpad : ∀ c ∈ pad, c.toNat = 10) (h1 : bodyOK s1) (h2 : lineOK s2) :
    extract_section "confidence_score" ⟨pad ++ mkReplyT s1 s2 s3 s4 s5 tail⟩ =
      ⟨pyStrip s2⟩ := by
  have hfind : findFrom ("confidence_score".data ++ [':'])
      (pad ++ mkReplyT s1 s2 s3 s4 s5 tail) =
      some (s2 ++ '\n' :: (nsL ++ (s3 ++ '\n' ::
        (srL ++ (s4 ++ '\n' :: (reL ++ (s5 ++ tail))))))) := by
    show findFrom csL (pad ++ mkReplyT s1 s2 s3 s4 s5 tail) = _
    rw [findFrom_skip_pad csL (by decide) (by decide) pad _ hpad]
    unfold mkReplyT
    rw [ffSkip_cs_rc]
    rw [findFrom_skip_body csL (by decide) (by decide) s1 _ (fun c hc => (h1 c hc).2)]
    exact findFrom_self csL _ (by decide)
  rw [extract_eq_of_find "confidence_score" _ _ hfind,
    capture_upto_label s2 h2 _ (show nsL = 'n' :: "ext_steps:".data from rfl) rfl]

/-- Extraction of `next_steps` from a (possibly newline-padded) well-formed
reply. -/
theorem extract_shape_ns (pad s1 s2 s3 s4 s5 tail : List Char)
    (hpad : ∀ c ∈ pad, c.toNat = 10) (h1 : bodyOK s1) (h2 : bodyOK s2)
    (h3 : lineOK s3) :
    extract_section "next_steps" ⟨pad ++ mkReplyT s1 s2 s3 s4 s5 tail⟩ =
      ⟨pyStrip s3⟩ := by
  have hfind : findFrom ("next_steps".data ++ [':'])
      (pad ++ mkReplyT s1 s2 s3 s4 s5 tail) =
      some (s3 ++ '\n' :: (srL ++ (s4 ++ '\n' :: (reL ++ (s5 ++ tail))))) := by
    show findFrom nsL (pad ++ mkReplyT s1 s2 s3 s4 s5 tail) = _
    rw [findFrom_skip_pad nsL (by decide) (by decide) pad _ hpad]
    unfold mkReplyT
    rw [ffSkip_ns_rc]
    rw [findFrom_skip_body nsL (by decide) (by decide) s1 _ (fun c hc => (h1 c hc).2)]
    rw [ffSkip_ns_cs]
    rw [findFrom_skip_body nsL (by decide) (by decide) s2 _ (fun c hc => (h2 c hc).2)]
    exact findFrom_self nsL _ (by decide)
  rw [extract_eq_of_find "next_steps" _ _ hfind,
    capture_upto_label s3 h3 _ (show srL = 's' :: "ummary_report:".data from rfl) rfl]

/-- Extraction of `summary_report` from a (possibly newline-padded)
well-formed reply. -/
theorem extract_shape_sr (pad s1 s2 s3 s4 s5 tail : List Char)
    (hpad : ∀ c ∈ pad, c.toNat = 10) (h1 : bodyOK s1) (h2 : bodyOK s2)
    (h3 : bodyOK s3) (h4 : lineOK s4) :
    extract_section "summary_report" ⟨pad ++ mkReplyT s1 s2 s3 s4 s5 tail⟩ =
      ⟨pyStrip s4⟩ := by
  have hfind : findFrom ("summary_report".data ++ [':'])
      (pad ++ mkReplyT s1 s2 s3 s4 s5 tail) =
      some (s4 ++ '\n' :: (reL ++ (s5 ++ tail))) := by
    show findFrom srL (pad ++ mkReplyT s1 s2 s3 s4 s5 tail) = _
    rw [findFrom_skip_pad srL (by decide) (by decide) pad _ hpad]
    unfold mkReplyT
    rw [ffSkip_sr_rc]
    rw [findFrom_skip_body srL (by decide) (by decide) s1 _ (fun c hc => (h1 c hc).2)]
    rw [ffSkip_sr_cs]
    rw [findFrom_skip_body srL (by decide) (by decide) s2 _ (fun c hc => (h2 c hc).2)]
    rw [ffSkip_sr_ns]
    rw [findFrom_skip_body srL (by decide) (by decide) s3 _ (fun c hc => (h3 c hc).2)]
    exact findFrom_self srL _ (by decide)
  rw [extract_eq_of_find "summary_report" _ _ hfind,
    capture_upto_label s4 h4 _ (show reL = 'r' :: "ecords:".data from rfl) rfl]

/-- Extraction of `records` from a (possibly newline-padded) well-formed
reply. -/
theorem extract_shape_re (pad s1 s2 s3 s4 s5 tail : List Char)
    (hpad : ∀ c ∈ pad, c.toNat = 10) (h1 : bodyOK s1) (h2 : bodyOK s2)
    (h3 : bodyOK s3) (h4 : bodyOK s4) (h5 : lineOK s5)
    (htail : tail = [] ∨ tail = ['\n']) :
    extract_section "records" ⟨pad ++ mkReplyT s1 s2 s3 s4 s5 tail⟩ =
      ⟨pyStrip s5⟩ := by
  have hfind : findFrom ("records".data ++ [':'])
      (pad ++ mkReplyT s1 s2 s3 s4 s5 tail) = some (s5 ++ tail) := by
    show findFrom reL (pad ++ mkReplyT s1 s2 s3 s4 s5 tail) = _
    rw [findFrom_skip_pad reL (by decide) (by decide) pad _ hpad]
    unfold mkReplyT
    rw [ffSkip_re_rc]
    rw [findFrom_skip_body reL (by decide) (by decide) s1 _ (fun c hc => (h1 c hc).2)]
    rw [ffSkip_re_cs]
    rw [findFrom_skip_body reL (by decide) (by decide) s2 _ (fun c hc => (h2 c hc).2)]
    rw [ffSkip_re_ns]
    rw [findFrom_skip_body reL (by decide) (by decide) s3 _ (fun c hc => (h3 c hc).2)]
    rw [ffSkip_re_sr]
    rw [findFrom_skip_body reL (by decide) (by decide) s4 _ (fun c hc => (h4 c hc).2)]
    exact findFrom_self reL _ (by decide)
  rw [extract_eq_of_find "records" _ _ hfind, capture_to_end s5 h5 tail htail]

/-! ### Matching a label occurrence written in another case -/

/-- Symmetry of the case-insensitive character comparison. -/
theorem ciEq_symm (a b : Char) (h : ciEq a b = true) : ciEq b a = true := by
  simp only [ciEq, upA, Bool.or_eq_true, Bool.and_eq_true, beq_iff_eq,
    decide_eq_true_eq] at h ⊢
  rcases h with (h | h) | h
  · exact Or.inl (Or.inl h.symm)
  · exact Or.inr h
  · exact Or.inl (Or.inr h)

/-- A case-insensitive variant of a pattern matches the pattern. -/
theorem ciPrefixB_of_ciListEq : ∀ (f t r : List Char), ciListEq t f = true →
    ciPrefixB f (t ++ r) = true
  | [], [], _, _ => rfl
  | [], _ :: _, _, h => by simp [ciListEq] at h
  | _ :: _, [], _, h => by simp [ciListEq] at h
  | a :: f', b :: t', r, h => by
    rw [ciListEq, Bool.and_eq_true] at h
    rw [List.cons_append, ciPrefixB, ciEq_symm b a h.1,
      ciPrefixB_of_ciListEq f' t' r h.2, Bool.and_self]

/-- Case-insensitively equal lists have equal length. -/
theorem ciListEq_length : ∀ (t f : List Char), ciListEq t f = true →
    t.length = f.length
  | [], [], _ => rfl
  | [], _ :: _, h => by simp [ciListEq] at h
  | _ :: _, [], h => by simp [ciListEq] at h
  | _ :: t', _ :: f', h => by
    rw [ciListEq, Bool.and_eq_true] at h
    simp [ciListEq_length t' f' h.2]

/-- Search skips a prefix at whose positions the pattern never matches. -/
theorem findFrom_skip_of_no_match (f : List Char) :
    ∀ (p t : List Char),
      (∀ i, i < p.length → ciPrefixB f (List.drop i (p ++ t)) = false) →
      findFrom f (p ++ t) = findFrom f t
  | [], _, _ => by simp
  | c :: p', t, hp => by
    have h0 := hp 0 (by simp)
    rw [List.drop_zero] at h0
    rw [List.cons_append] at h0 ⊢
    rw [findFrom, if_neg (by simp [h0])]
    exact findFrom_skip_of_no_match f p' t (fun i hi => by
      have := hp (i + 1) (by simpa using Nat.succ_lt_succ hi)
      rwa [List.cons_append, List.drop_succ_cons] at this)

/-- Search finds a case-insensitive occurrence sitting at the start of the
text and returns exactly the text after it. -/
theorem findFrom_ci_self (f t r : List Char) (hci : ciListEq t f = true)
    (hne : f ≠ []) : findFrom f (t ++ r) = some r := by
  obtain ⟨b, t', rfl⟩ : ∃ b t', t = b :: t' := by
    cases t with
    | nil =>
      cases f with
      | nil => exact absurd rfl hne
      | cons a f' => simp [ciListEq] at hci
    | cons b t' => exact ⟨b, t', rfl⟩
  have h : ciPrefixB f ((b :: t') ++ r) = true := ciPrefixB_of_ciListEq f _ r hci
  rw [List.cons_append] at h ⊢
  rw [findFrom, if_pos (by simp [h])]
  rw [← List.cons_append, List.drop_left' (ciListEq_length _ _ hci)]

/-! ### Claim C3 -/

/-- Claim C3, failing part: on a reply containing all five labels in order,
each followed by a colon, `extract_section` does NOT always recover the text
between a label's colon and the next label.  Here the interior of
`root_cause` is " a\nb\n" (stripped: "a\nb"), but the capture stops at the
line "b" because the lookahead `\n[A-Z]` under `re.IGNORECASE` fires on any
letter-initial line, not only on the next label. -/
theorem c3_counterexample :
    extract_section "root_cause"
      "root_cause: a\nb\nconfidence_score: c\nnext_steps: d\nsummary_report: e\nrecords: f"
      = "a" ∧ ("a" : String) ≠ "a\nb" := by
  constructor
  · decide
  · decide

/-- Claim C3 as amended: for reply texts with the five labels in order, each
followed by a colon, extraction recovers each section's stripped interior
text PROVIDED each section body stays on one line and the bodies of the
first four sections contain no colon (so no label token is shadowed and no
interior line can terminate a capture early). -/
theorem c3_amended_extract_recovers_sections (s1 s2 s3 s4 s5 : List Char)
    (h1 : bodyOK s1) (h2 : bodyOK s2) (h3 : bodyOK s3) (h4 : bodyOK s4)
    (h5 : lineOK s5) :
    extract_section "root_cause" (mkReplyStr s1 s2 s3 s4 s5) = ⟨pyStrip s1⟩ ∧
    extract_section "confidence_score" (mkReplyStr s1 s2 s3 s4 s5) = ⟨pyStrip s2⟩ ∧
    extract_section "next_steps" (mkReplyStr s1 s2 s3 s4 s5) = ⟨pyStrip s3⟩ ∧
    extract_section "summary_report" (mkReplyStr s1 s2 s3 s4 s5) = ⟨pyStrip s4⟩ ∧
    extract_section "records" (mkReplyStr s1 s2 s3 s4 s5) = ⟨pyStrip s5⟩ := by
  have e : mkReplyStr s1 s2 s3 s4 s5 =
      ⟨([] : List Char) ++ mkReplyT s1 s2 s3 s4 s5 []⟩ := rfl
  rw [e]
  refine ⟨?_, ?_, ?_, ?_, ?_⟩
  · exact extract_shape_rc [] s1 s2 s3 s4 s5 [] (by simp) (fun c hc => (h1 c hc).1)
  · exact extract_shape_cs [] s1 s2 s3 s4 s5 [] (by simp) h1 (fun c hc => (h2 c hc).1)
  · exact extract_shape_ns [] s1 s2 s3 s4 s5 [] (by simp) h1 h2 (fun c hc => (h3 c hc).1)
  · exact extract_shape_sr [] s1 s2 s3 s4 s5 [] (by simp) h1 h2 h3 (fun c hc => (h4 c hc).1)
  · exact extract_shape_re [] s1 s2 s3 s4 s5 [] (by simp) h1 h2 h3 h4 h5 (Or.inl rfl)

/-- Concrete instance of the amended claim C3, with a records body holding
colons and braces. -/
theorem c3_amended_witness :
    extract_section "root_cause"
      (mkReplyStr " Missing switch leg".data " 85%".data " Reverse and repost".data
        " Value reached CBS only".data " \x7b\x27CBS\x27\x3a \x7b\x27amount\x27\x3a 100\x7d\x7d".data)
      = "Missing switch leg" ∧
    extract_section "confidence_score"
      (mkReplyStr " Missing switch leg".data " 85%".data " Reverse and repost".data
        " Value reached CBS only".data " \x7b\x27CBS\x27\x3a \x7b\x27amount\x27\x3a 100\x7d\x7d".data)
      = "85%" ∧
    extract_section "next_steps"
      (mkReplyStr " Missing switch leg".data " 85%".data " Reverse and repost".data
        " Value reached CBS only".data " \x7b\x27CBS\x27\x3a \x7b\x27amount\x27\x3a 100\x7d\x7d".data)
      = "Reverse and repost" ∧
    extract_section "summary_report"
      (mkReplyStr " Missing switch leg".data " 85%".data " Reverse and repost".data
        " Value reached CBS only".data " \x7b\x27CBS\x27\x3a \x7b\x27amount\x27\x3a 100\x7d\x7d".data)
      = "Value reached CBS only" ∧
    extract_section "records"
      (mkReplyStr " Missing switch leg".data " 85%".data " Reverse and repost".data
        " Value reached CBS only".data " \x7b\x27CBS\x27\x3a \x7b\x27amount\x27\x3a 100\x7d\x7d".data)
      = "\x7b\x27CBS\x27\x3a \x7b\x27amount\x27\x3a 100\x7d\x7d" := by
  have h := c3_amended_extract_recovers_sections
    " Missing switch leg".data " 85%".data " Reverse and repost".data
    " Value reached CBS only".data " \x7b\x27CBS\x27\x3a \x7b\x27amount\x27\x3a 100\x7d\x7d".data
    (by decide) (by decide) (by decide) (by decide) (by decide)
  obtain ⟨e1, e2, e3, e4, e5⟩ := h
  refine ⟨?_, ?_, ?_, ?_, ?_⟩
  · rw [e1]; decide
  · rw [e2]; decide
  · rw [e3]; decide
  · rw [e4]; decide
  · rw [e5]; decide

/-! ### Claim C10 -/

/-- Claim C10: `extract_section` matches the label token (with its colon)
case-insensitively as a substring anywhere in the text — mid-line included —
and the FIRST such occurrence determines the returned section.  If the text
decomposes as `p ++ occ ++ r` where `occ` is a case-variant of
`label ++ ":"` and the pattern matches at no position inside `p`, the
result is the stripped capture that starts right after `occ`. -/
theorem c10_substring_match_anywhere (label : String) (occ p r : List Char)
    (hci : ciListEq occ (label.data ++ [':']) = true)
    (hp : ∀ i, i < p.length →
      ciPrefixB (label.data ++ [':']) (List.drop i (p ++ (occ ++ r))) = false) :
    extract_section label ⟨p ++ (occ ++ r)⟩ =
      ⟨pyStrip (captureUntilBoundary r)⟩ := by
  apply extract_eq_of_find
  rw [findFrom_skip_of_no_match _ p _ hp]
  exact findFrom_ci_self _ occ r hci (by simp)

/-- Concrete instance of claim C10: the label occurs mid-line, in prose,
written in a different case, and is still matched there. -/
theorem c10_witness :
    extract_section "root_cause"
      "Analyst note Root_Cause: switch outage\nsee thread" = "switch outage" := by
  have e : ("Analyst note Root_Cause: switch outage\nsee thread" : String) =
      ⟨"Analyst note ".data ++ ("Root_Cause:".data ++ " switch outage\nsee thread".data)⟩ := by
    decide
  have h := c10_substring_match_anywhere "root_cause" "Root_Cause:".data
    "Analyst note ".data " switch outage\nsee thread".data (by decide) (by decide)
  rw [e, h]
  decide

/-! ### Claim C4 -/

/-- Claim C4: when a label (followed by its colon) has no case-insensitive
occurrence in the reply, `extract_section` returns the placeholder `"-"`
(and, being a total function, raises nothing); and on a well-formed reply
from which the `next_steps` section is entirely absent, the other four
labels extract exactly the same values as from the reply that carries all
five sections, while `next_steps` itself yields `"-"`. -/
theorem c4_absent_label_placeholder :
    (∀ (label text : String),
      ciOccursB (label.data ++ [':']) text.data = false →
      extract_section label text = "-") ∧
    (∀ s1 s2 s3 s4 s5 : List Char, bodyOK s1 → bodyOK s2 → bodyOK s3 →
      bodyOK s4 → bodyOK s5 →
      extract_section "next_steps" (mkReplyNoNsStr s1 s2 s4 s5) = "-" ∧
      extract_section "root_cause" (mkReplyNoNsStr s1 s2 s4 s5) =
        extract_section "root_cause" (mkReplyStr s1 s2 s3 s4 s5) ∧
      extract_section "confidence_score" (mkReplyNoNsStr s1 s2 s4 s5) =
        extract_section "confidence_score" (mkReplyStr s1 s2 s3 s4 s5) ∧
      extract_section "summary_report" (mkReplyNoNsStr s1 s2 s4 s5) =
        extract_section "summary_report" (mkReplyStr s1 s2 s3 s4 s5) ∧
      extract_section "records" (mkReplyNoNsStr s1 s2 s4 s5) =
        extract_section "records" (mkReplyStr s1 s2 s3 s4 s5)) := by
  constructor
  · intro label text h
    unfold extract_section
    rw [(findFrom_eq_none_iff _ _).mpr h]
  · intro s1 s2 s3 s4 s5 h1 h2 h3 h4 h5
    have eplain : mkReplyStr s1 s2 s3 s4 s5 =
        ⟨([] : List Char) ++ mkReplyT s1 s2 s3 s4 s5 []⟩ := rfl
    have hpad0 : ∀ c ∈ ([] : List Char), c.toNat = 10 := by simp
    refine ⟨?_, ?_, ?_, ?_, ?_⟩
    · apply extract_eq_dash
      show findFrom nsL _ = none
      rw [ffSkip_ns_rc]
      rw [findFrom_skip_body nsL (by decide) (by decide) s1 _ (fun c hc => (h1 c hc).2)]
      rw [ffSkip_ns_cs]
      rw [findFrom_skip_body nsL (by decide) (by decide) s2 _ (fun c hc => (h2 c hc).2)]
      rw [ffSkip_ns_sr]
      rw [findFrom_skip_body nsL (by decide) (by decide) s4 _ (fun c hc => (h4 c hc).2)]
      rw [ffSkip_ns_re]
      exact findFrom_none_of_colon nsL (by decide) s5 (fun c hc => (h5 c hc).2)
    · rw [eplain,
        extract_shape_rc [] s1 s2 s3 s4 s5 [] hpad0 (fun c hc => (h1 c hc).1)]
      have hfind : findFrom ("root_cause".data ++ [':'])
          (rcL ++ (s1 ++ '\n' :: (csL ++ (s2 ++ '\n' :: (srL ++ (s4 ++ '\n' ::
            (reL ++ s5))))))) =
          some (s1 ++ '\n' :: (csL ++ (s2 ++ '\n' :: (srL ++ (s4 ++ '\n' ::
            (reL ++ s5)))))) := by
        show findFrom rcL _ = _
        exact findFrom_self rcL _ (by decide)
      rw [show mkReplyNoNsStr s1 s2 s4 s5 = ⟨rcL ++ (s1 ++ '\n' :: (csL ++
        (s2 ++ '\n' :: (srL ++ (s4 ++ '\n' :: (reL ++ s5))))))⟩ from rfl]
      rw [extract_eq_of_find "root_cause" _ _ hfind,
        capture_upto_label s1 (fun c hc => (h1 c hc).1) _
          (show csL = 'c' :: "onfidence_score:".data from rfl) rfl]
    · rw [eplain,
        extract_shape_cs [] s1 s2 s3 s4 s5 [] hpad0 h1 (fun c hc => (h2 c hc).1)]
      have hfind : findFrom ("confidence_score".data ++ [':'])
          (rcL ++ (s1 ++ '\n' :: (csL ++ (s2 ++ '\n' :: (srL ++ (s4 ++ '\n' ::
            (reL ++ s5))))))) =
          some (s2 ++ '\n' :: (srL ++ (s4 ++ '\n' :: (reL ++ s5)))) := by
        show findFrom csL _ = _
        rw [ffSkip_cs_rc]
        rw [findFrom_skip_body csL (by decide) (by decide) s1 _ (fun c hc => (h1 c hc).2)]
        exact findFrom_self csL _ (by decide)
      rw [show mkReplyNoNsStr s1 s2 s4 s5 = ⟨rcL ++ (s1 ++ '\n' :: (csL ++
        (s2 ++ '\n' :: (srL ++ (s4 ++ '\n' :: (reL ++ s5))))))⟩ from rfl]
      rw [extract_eq_of_find "confidence_score" _ _ hfind,
        capture_upto_label s2 (fun c hc => (h2 c hc).1) _
          (show srL = 's' :: "ummary_report:".data from rfl) rfl]
    · rw [eplain,
        extract_shape_sr [] s1 s2 s3 s4 s5 [] hpad0 h1 h2 h3 (fun c hc => (h4 c hc).1)]
      have hfind : findFrom ("summary_report".data ++ [':'])
          (rcL ++ (s1 ++ '\n' :: (csL ++ (s2 ++ '\n' :: (srL ++ (s4 ++ '\n' ::
            (reL ++ s5))))))) =
          some (s4 ++ '\n' :: (reL ++ s5)) := by
        show findFrom srL _ = _
        rw [ffSkip_sr_rc]
        rw [findFrom_skip_body srL (by decide) (by decide) s1 _ (fun c hc => (h1 c hc).2)]
        rw [ffSkip_sr_cs]
        rw [findFrom_skip_body srL (by decide) (by decide) s2 _ (fun c hc => (h2 c hc).2)]
        exact findFrom_self srL _ (by decide)
      rw [show mkReplyNoNsStr s1 s2 s4 s5 = ⟨rcL ++ (s1 ++ '\n' :: (csL ++
        (s2 ++ '\n' :: (srL ++ (s4 ++ '\n' :: (reL ++ s5))))))⟩ from rfl]
      rw [extract_eq_of_find "summary_report" _ _ hfind,
        capture_upto_label s4 (fun c hc => (h4 c hc).1) _
          (show reL = 'r' :: "ecords:".data from rfl) rfl]
    · rw [eplain,
        extract_shape_re [] s1 s2 s3 s4 s5 [] hpad0 h1 h2 h3 h4
          (fun c hc => (h5 c hc).1) (Or.inl rfl)]
      have hfind : findFrom ("records".data ++ [':'])
          (rcL ++ (s1 ++ '\n' :: (csL ++ (s2 ++ '\n' :: (srL ++ (s4 ++ '\n' ::
            (reL ++ s5))))))) = some s5 := by
        show findFrom reL _ = _
        rw [ffSkip_re_rc]
        rw [findFrom_skip_body reL (by decide) (by decide) s1 _ (fun c hc => (h1 c hc).2)]
        rw [ffSkip_re_cs]
        rw [findFrom_skip_body reL (by decide) (by decide) s2 _ (fun c hc => (h2 c hc).2)]
        rw [ffSkip_re_sr]
        rw [findFrom_skip_body reL (by decide) (by decide) s4 _ (fun c hc => (h4 c hc).2)]
        exact findFrom_self reL _ (by decide)
      rw [show mkReplyNoNsStr s1 s2 s4 s5 = ⟨rcL ++ (s1 ++ '\n' :: (csL ++
        (s2 ++ '\n' :: (srL ++ (s4 ++ '\n' :: (reL ++ s5))))))⟩ from rfl]
      rw [extract_eq_of_find "records" _ _ hfind]
      have hcap := capture_to_end s5 (fun c hc => (h5 c hc).1) [] (Or.inl rfl)
      rw [List.append_nil] at hcap
      rw [hcap]

/-- Concrete instance of claim C4: a reply missing `next_steps` yields `"-"`
for that label only, with the other sections extracted as if it were
present. -/
theorem c4_witness :
    extract_section "confidence_score" "root_cause: a\nrecords: b" = "-" ∧
    extract_section "next_steps" (mkReplyNoNsStr " a".data " b".data " d".data " e".data) = "-" ∧
    extract_section "root_cause" (mkReplyNoNsStr " a".data " b".data " d".data " e".data) =
      extract_section "root_cause" (mkReplyStr " a".data " b".data " c".data " d".data " e".data) := by
  have h1 := c4_absent_label_placeholder.1 "confidence_score" "root_cause: a\nrecords: b"
    (by decide)
  have h2 := c4_absent_label_placeholder.2 " a".data " b".data " c".data " d".data " e".data
    (by decide) (by decide) (by decide) (by decide) (by decide)
  exact ⟨h1, h2.1, h2.2.1⟩

/-! ### Claim C7 -/

/-- Destructuring of a match of `"nan"` at the head of a text. -/
theorem nan_prefix_split (c : Char) (rest : List Char)
    (h : List.isPrefixOf "nan".data (c :: rest) = true) :
    c = 'n' ∧ ∃ rest2, rest = 'a' :: 'n' :: rest2 := by
  cases rest with
  | nil => simp [List.isPrefixOf] at h
  | cons a rest' =>
    cases rest' with
    | nil => simp [List.isPrefixOf] at h
    | cons b rest2 =>
      simp only [List.isPrefixOf, Bool.and_eq_true, beq_iff_eq] at h
      obtain ⟨hc, ha, hb, -⟩ := h
      exact ⟨hc.symm, rest2, by rw [← ha, ← hb]⟩

/-- Reduction of the replacement scanner at a `"nan"` match. -/
theorem nanGo_match (rest2 : List Char) :
    pyReplaceGo "nan".data "None".data 0 ('n' :: 'a' :: 'n' :: rest2) =
      'N' :: 'o' :: 'n' :: 'e' :: pyReplaceGo "nan".data "None".data 0 rest2 := by
  have hc : List.isPrefixOf "nan".data ('n' :: 'a' :: 'n' :: rest2) = true := by
    simp [List.isPrefixOf]
  rw [show pyReplaceGo "nan".data "None".data 0 ('n' :: 'a' :: 'n' :: rest2) =
    if List.isPrefixOf "nan".data ('n' :: 'a' :: 'n' :: rest2) then
      "None".data ++ pyReplaceGo "nan".data "None".data ("nan".data.length - 1)
        ('a' :: 'n' :: rest2)
    else 'n' :: pyReplaceGo "nan".data "None".data 0 ('a' :: 'n' :: rest2) from rfl]
  rw [if_pos (by simp [hc])]
  rfl

/-- Reduction of the replacement scanner at a non-match. -/
theorem nanGo_skip (c : Char) (rest : List Char)
    (h : List.isPrefixOf "nan".data (c :: rest) = false) :
    pyReplaceGo "nan".data "None".data 0 (c :: rest) =
      c :: pyReplaceGo "nan".data "None".data 0 rest := by
  simp only [pyReplaceGo]
  rw [if_neg (by simp [h])]

/-- Occurrence scanning passes over the four characters a replacement
emits. -/
theorem occursB_nan_cons_none (X : List Char) :
    occursB "nan".data ('N' :: 'o' :: 'n' :: 'e' :: X) = occursB "nan".data X := rfl

/-- Low-case prefixes of the replacement output reflect to the input: the
emitted `"None"` blocks start with a capital `N`, so a prefix avoiding `'N'`
can only come from copied characters. -/
theorem reflect_nan : ∀ (n : Nat) (t p : List Char), t.length ≤ n →
    (∀ c ∈ p, c ≠ 'N') →
    List.isPrefixOf p (pyReplaceGo "nan".data "None".data 0 t) = true →
    List.isPrefixOf p t = true
  | _, [], p, _, _, h => by
    cases p with
    | nil => rfl
    | cons d p' => simp [pyReplaceGo, List.isPrefixOf] at h
  | Nat.succ n, c :: rest, p, hlen, hp, h => by
    by_cases hm : List.isPrefixOf "nan".data (c :: rest) = true
    · obtain ⟨rfl, rest2, rfl⟩ := nan_prefix_split c rest hm
      rw [nanGo_match] at h
      cases p with
      | nil => rfl
      | cons d p' =>
        simp only [List.isPrefixOf, Bool.and_eq_true, beq_iff_eq] at h
        exact absurd h.1 (hp d (List.mem_cons_self d p'))
    · rw [nanGo_skip c rest (Bool.eq_false_iff.mpr hm)] at h
      cases p with
      | nil => rfl
      | cons d p' =>
        simp only [List.isPrefixOf, Bool.and_eq_true] at h ⊢
        refine ⟨h.1, ?_⟩
        exact reflect_nan n rest p' (by simpa using Nat.le_of_succ_le_succ hlen)
          (fun e he => hp e (List.mem_cons_of_mem d he)) h.2
  | 0, c :: rest, _, hlen, _, _ => by simp at hlen

/-- Replacing `"nan"` by `"None"` leaves no occurrence of `"nan"` behind. -/
theorem noOcc_after_nan : ∀ (n : Nat) (t : List Char), t.length ≤ n →
    occursB "nan".data (pyReplaceGo "nan".data "None".data 0 t) = false
  | _, [], _ => rfl
  | Nat.succ n, c :: rest, hlen => by
    by_cases hm : List.isPrefixOf "nan".data (c :: rest) = true
    · obtain ⟨rfl, rest2, rfl⟩ := nan_prefix_split c rest hm
      rw [nanGo_match, occursB_nan_cons_none]
      exact noOcc_after_nan n rest2 (by simp at hlen ⊢; omega)
    · rw [nanGo_skip c rest (Bool.eq_false_iff.mpr hm)]
      simp only [occursB, Bool.or_eq_false_iff]
      constructor
      · apply Bool.eq_false_iff.mpr
        intro hpre
        obtain ⟨rfl, X2, hX⟩ := nan_prefix_split c _ hpre
        have hrefl : List.isPrefixOf ('a' :: 'n' :: []) rest = true := by
          apply reflect_nan n rest ('a' :: 'n' :: [])
            (by simpa using Nat.le_of_succ_le_succ hlen) (by decide)
          rw [hX]
          simp [List.isPrefixOf]
        apply hm
        show List.isPrefixOf ('n' :: 'a' :: 'n' :: []) ('n' :: rest) = true
        simp only [List.isPrefixOf, Bool.and_eq_true, beq_iff_eq] at hrefl ⊢
        simpa using hrefl
      · exact noOcc_after_nan n rest (by simpa using Nat.le_of_succ_le_succ hlen)
  | 0, c :: rest, hlen => by simp at hlen

/-- A text with no occurrence of the pattern is a fixed point of the
replacement scanner. -/
theorem pyReplaceGo_fix (f r : List Char) : ∀ t : List Char,
    occursB f t = false → pyReplaceGo f r 0 t = t
  | [], _ => rfl
  | c :: rest, h => by
    simp only [occursB, Bool.or_eq_false_iff] at h
    simp only [pyReplaceGo]
    rw [if_neg (by simp [h.1])]
    rw [pyReplaceGo_fix f r rest h.2]

/-- Claim C7: the `nan` → `None` normalization applied to the captured
records text before `ast.literal_eval` is idempotent — running it on
already-normalized text is a no-op. -/
theorem c7_nan_normalization_idempotent (s : String) :
    normRecords (normRecords s) = normRecords s := by
  show (⟨pyReplace "nan".data "None".data
      (pyReplace "nan".data "None".data s.data)⟩ : String) = _
  apply congrArg String.mk
  apply pyReplaceGo_fix
  exact noOcc_after_nan s.data.length s.data le_rfl

/-! ### Claim C2 -/

/-- Claim C2: a transaction id with no CBS row yields the "not found" report
and zero generation calls, on both the single-transaction path and the
batch path. -/
theorem c2_not_found_no_generation (env : Env)
    (evalLit : String → Option (List (String × String))) (txn : String)
    (h : env.cbsLookup txn = none) :
    processTxn env txn = (RowOutcome.notFound, 0) ∧
    processSingle env evalLit txn = (SingleOutcome.notFound, 0) := by
  constructor
  · unfold processTxn
    rw [h]
  · unfold processSingle
    rw [h]

/-- Concrete instance of claim C2, on an environment whose CBS table is
empty. -/
theorem c2_witness :
    processTxn ⟨fun _ => none, fun _ => none, fun _ => none, fun _ => none,
      fun _ => Except.ok ""⟩ "TXN404" = (RowOutcome.notFound, 0) ∧
    processSingle ⟨fun _ => none, fun _ => none, fun _ => none, fun _ => none,
      fun _ => Except.ok ""⟩ (fun _ => some []) "TXN404" =
      (SingleOutcome.notFound, 0) :=
  c2_not_found_no_generation _ _ "TXN404" rfl

/-! ### Claim C9 -/

/-- Claim C9: an uploaded batch file without a `txn_id` column fails as a
whole with the single input-error report; no row is processed, no result is
produced, and no generation call happens. -/
theorem c9_missing_column_fatal (env : Env)
    (evalLit : String → Option (List (String × String))) (tbl : UploadTable)
    (h : "txn_id" ∉ tbl.cols) :
    tab2Run env evalLit tbl = [Ev.inputError] ∧ tab2Calls env tbl = 0 := by
  constructor
  · unfold tab2Run
    rw [if_neg h]
  · unfold tab2Calls
    rw [if_neg h]

/-- Concrete instance of claim C9: two uploaded rows under wrongly named
columns produce only the input error. -/
theorem c9_witness :
    tab2Run envC1 (fun _ => some []) ⟨["id", "amount"], ["T1", "T2"]⟩ =
      [Ev.inputError] ∧
    tab2Calls envC1 ⟨["id", "amount"], ["T1", "T2"]⟩ = 0 :=
  c9_missing_column_fatal envC1 _ _ (by decide)

/-! ### Claim C1 -/

/-- Positional unfolding of the batch outcome stream. -/
theorem processBatch_get (env : Env) (ids : List String) (i : Nat)
    (h : i < ids.length) (h2 : i < (processBatch env ids).length) :
    (processBatch env ids).get ⟨i, h2⟩ =
      (processTxn env (ids.get ⟨i, h⟩)).fst := by
  simp [processBatch, List.get_eq_getElem, List.getElem_map]

/-- Unfolding of one batch iteration once the CBS row is known to exist. -/
theorem processTxn_found (env : Env) (txn cbsRow : String)
    (h : env.cbsLookup txn = some cbsRow) :
    processTxn env txn =
      (match env.generate (promptOf env txn cbsRow) with
       | Except.error e => (RowOutcome.genFailed e, 1)
       | Except.ok raw => (RowOutcome.success (mkResult txn raw), 1)) := by
  unfold processTxn
  rw [h]

/-- Claim C1: in a batch whose transactions all have CBS rows and where
generation fails for exactly the transaction at position `k`, the outcome
stream has one entry per transaction, in input order; entry `k` is the
generation-failure report and every other entry is a parsed success.
Transaction `k` is reported, not silently dropped from the stream. -/
theorem c1_batch_failure_isolation (env : Env) (ids : List String) (k : Nat)
    (hk : k < ids.length) (row reply : Nat → String) (err : String)
    (hcbs : ∀ i (h : i < ids.length),
      env.cbsLookup (ids.get ⟨i, h⟩) = some (row i))
    (hgen : ∀ i (h : i < ids.length),
      env.generate (promptOf env (ids.get ⟨i, h⟩) (row i)) =
        if i = k then Except.error err else Except.ok (reply i)) :
    (processBatch env ids).length = ids.length ∧
    (∀ h2 : k < (processBatch env ids).length,
      (processBatch env ids).get ⟨k, h2⟩ = RowOutcome.genFailed err) ∧
    (∀ i (h : i < ids.length) (h2 : i < (processBatch env ids).length),
      i ≠ k → (processBatch env ids).get ⟨i, h2⟩ =
        RowOutcome.success (mkResult (ids.get ⟨i, h⟩) (reply i))) := by
  refine ⟨List.length_map ids _, ?_, ?_⟩
  · intro h2
    rw [processBatch_get env ids k hk h2,
      processTxn_found env _ _ (hcbs k hk), hgen k hk, if_pos rfl]
  · intro i h h2 hne
    rw [processBatch_get env ids i h h2,
      processTxn_found env _ _ (hcbs i h), hgen i h, if_neg hne]

set_option maxRecDepth 100000 in
/-- Concrete instance of claim C1: three transactions, generation failing
exactly on the second; the stream keeps all three, in order, with the
failure reported in place. -/
theorem c1_witness :
    (processBatch envC1 ["T1", "T2", "T3"]).length = 3 ∧
    (processBatch envC1 ["T1", "T2", "T3"]).get ⟨1, by decide⟩ =
      RowOutcome.genFailed "generation boom" ∧
    (processBatch envC1 ["T1", "T2", "T3"]).get ⟨0, by decide⟩ =
      RowOutcome.success ⟨"T1", "a", "b", "c", "d", "e"⟩ ∧
    (processBatch envC1 ["T1", "T2", "T3"]).get ⟨2, by decide⟩ =
      RowOutcome.success ⟨"T3", "a", "b", "c", "d", "e"⟩ := by
  have h := c1_batch_failure_isolation envC1 ["T1", "T2", "T3"] 1 (by decide)
    (fun i => "row " ++ (["T1", "T2", "T3"].getD i "")) (fun _ => replyC1)
    "generation boom" (by decide) (by decide)
  refine ⟨h.1, h.2.1 _, ?_, ?_⟩
  · rw [h.2.2 0 (by decide) _ (by decide)]
    decide
  · rw [h.2.2 2 (by decide) _ (by decide)]
    decide

/-! ### Claim C5 -/

set_option maxRecDepth 200000 in
/-- Claim C5 names behaviour the source does not have: in the batch tab the
`ast.literal_eval` of each row's records section runs inside the display
loop, which sits under the OUTER `try` (lines 201-297), not under the
per-transaction one.  Evaluated at a two-transaction batch whose first
records section is malformed, the page shows the header, the first row's
summary part, and one batch-level error — the second transaction, although
fully processed into `results` (second conjunct), is never rendered. -/
theorem c5_records_parse_aborts_batch_report :
    tab2Run envC5 evalLitC5 ⟨["txn_id"], ["T1", "T2"]⟩ =
      [Ev.header, Ev.partialRow ⟨"T1", "a", "b", "c", "d", "oops["⟩,
        Ev.batchError] ∧
    successResults (processBatch envC5 ["T1", "T2"]) =
      [⟨"T1", "a", "b", "c", "d", "oops["⟩,
       ⟨"T2", "a", "b", "c", "d", "\x7b\x7d"⟩] := by
  constructor
  · decide
  · decide

/-! ### Claim C8 -/

/-- A pattern fitting inside the first part of an appended list matches
there iff it matches with the second part attached. -/
theorem isPrefixOf_append_long : ∀ (f X B : List Char), f.length ≤ X.length →
    List.isPrefixOf f (X ++ B) = List.isPrefixOf f X
  | [], X, B, _ => by simp [List.isPrefixOf]
  | a :: f', [], _, h => by simp at h
  | a :: f', x :: X', B, h => by
    show (a == x && List.isPrefixOf f' (X' ++ B)) = (a == x && List.isPrefixOf f' X')
    rw [isPrefixOf_append_long f' X' B (by simpa using Nat.le_of_succ_le_succ h)]

/-- A pattern longer than the text never matches at its start. -/
theorem isPrefixOf_short_false : ∀ (f X : List Char), X.length < f.length →
    List.isPrefixOf f X = false
  | [], _, h => by simp at h
  | _ :: _, [], _ => by simp [List.isPrefixOf]
  | a :: f', x :: X', h => by
    simp only [List.isPrefixOf]
    rw [isPrefixOf_short_false f' X' (by simpa using Nat.lt_of_succ_lt_succ h)]
    simp

/-- Occurrence counting distributes over an append when no occurrence spans
the seam. -/
theorem countOcc_append : ∀ (A B f : List Char),
    (∀ b : List Char, b <:+ A → b ≠ [] → b.length < f.length →
      List.isPrefixOf f (b ++ B) = false) →
    countOcc f (A ++ B) = countOcc f A + countOcc f B
  | [], B, f, _ => by simp [countOcc]
  | c :: A', B, f, hspan => by
    have htail := countOcc_append A' B f
      (fun b hb hne hlen => hspan b (hb.trans (List.suffix_cons c A')) hne hlen)
    have hhead : ∀ t : List Char,
        countOcc f (c :: t) =
          (if List.isPrefixOf f (c :: t) then 1 else 0) + countOcc f t :=
      fun _ => rfl
    show countOcc f (c :: (A' ++ B)) = countOcc f (c :: A') + countOcc f B
    rw [hhead, hhead, htail]
    rcases Nat.lt_or_ge (c :: A').length f.length with hlt | hge
    · have hx : List.isPrefixOf f (c :: (A' ++ B)) = false :=
        hspan (c :: A') List.suffix_rfl (by simp) hlt
      rw [hx, isPrefixOf_short_false f (c :: A') hlt]
      omega
    · have hx : List.isPrefixOf f (c :: (A' ++ B)) = List.isPrefixOf f (c :: A') :=
        isPrefixOf_append_long f (c :: A') B hge
      rw [hx]
      omega

/-- Span-safety at a boundary whose right side starts with a newline, for
the newline-free pattern `"N/A"`: any straddling occurrence would put `'/'`
or `'A'` on the newline. -/
theorem spanSafe_nl (X B B' : List Char) (hB : B = '\n' :: B') :
    ∀ b : List Char, b <:+ X → b ≠ [] → b.length < ("N/A".data).length →
      List.isPrefixOf "N/A".data (b ++ B) = false := by
  subst hB
  intro b _ hne hlen
  match b with
  | [] => exact absurd rfl hne
  | [x] => simp [List.isPrefixOf]
  | [x, y] => simp [List.isPrefixOf]
  | x :: y :: z :: b' => exact absurd hlen (by simp)

/-- Span-safety of a three-character pattern at a boundary, established by
checking the two short suffixes of the left side. -/
theorem spanSafe_two (f A B : List Char) (hf : f.length = 3)
    (h1 : List.isPrefixOf f (A.drop (A.length - 1) ++ B) = false)
    (h2 : List.isPrefixOf f (A.drop (A.length - 2) ++ B) = false) :
    ∀ b : List Char, b <:+ A → b ≠ [] → b.length < f.length →
      List.isPrefixOf f (b ++ B) = false := by
  intro b hsuf hne hlen
  obtain ⟨p, hp⟩ := hsuf
  have hd : A.drop p.length = b := by rw [← hp]; exact List.drop_left p b
  have hlenA : A.length = p.length + b.length := by rw [← hp]; simp
  have hb0 : b.length ≠ 0 := by
    intro h0
    exact hne (List.length_eq_zero.mp h0)
  have : b.length = 1 ∨ b.length = 2 := by omega
  rcases this with h | h
  · rw [← hd, show p.length = A.length - 1 from by omega]
    exact h1
  · rw [← hd, show p.length = A.length - 2 from by omega]
    exact h2

/-- Span-safety of the pattern `"N/A"` at a boundary whose left side does
not end in `'N'` or in `"N/"` — a decidable check on the left side alone. -/
theorem spanSafe_na (A B : List Char) (h1 : ¬ (['N'] <:+ A))
    (h2 : ¬ (['N', '/'] <:+ A)) :
    ∀ b : List Char, b <:+ A → b ≠ [] → b.length < ("N/A".data).length →
      List.isPrefixOf "N/A".data (b ++ B) = false := by
  intro b hsuf hne hlen
  match b with
  | [] => exact absurd rfl hne
  | [x] =>
    by_cases hx : x = 'N'
    · subst hx
      exact absurd hsuf h1
    · have : ('N' == x) = false := by
        apply Bool.eq_false_iff.mpr
        intro hc
        exact hx (beq_iff_eq.mp hc).symm
      simp [List.isPrefixOf, this]
  | [x, y] =>
    by_cases hx : x = 'N'
    · by_cases hy : y = '/'
      · subst hx
        subst hy
        exact absurd hsuf h2
      · have : ('/' == y) = false := by
          apply Bool.eq_false_iff.mpr
          intro hc
          exact hy (beq_iff_eq.mp hc).symm
        simp [List.isPrefixOf, this]
    · have : ('N' == x) = false := by
        apply Bool.eq_false_iff.mpr
        intro hc
        exact hx (beq_iff_eq.mp hc).symm
      simp [List.isPrefixOf, this]
  | x :: y :: z :: b' => exact absurd hlen (by simp)

set_option maxRecDepth 200000 in
/-- Decomposition of the rendered prompt into its template segments and the
five substituted variables. -/
theorem prompt_data (txn cbs mpesa switch disb : String) :
    (prompt_text txn cbs mpesa switch disb).data =
      "\nYou are a banking operations assistant. A user has submitted an unmatched transaction that needs investigation.\n\nTransaction ID: ".data ++
      (txn.data ++ ("\n\nCBS:\n".data ++ (cbs.data ++ ("\n\nM-Pesa:\n".data ++
      (mpesa.data ++ ("\n\nSwitch Logs:\n".data ++ (switch.data ++
      ("\n\nDisbursement API:\n".data ++ (disb.data ++
      "\n\n\nCBS is the main system where the reconcilling error or was discovered. Interogate the other systems i.e. M-Pesa, Switch Logs and Disbursement API then \nreturn very very brief and concise results with the following format:\nroot_cause: Identify the likely root cause for the unmatched transaction \nconfidence_score: Add a short confidence score (as a percentage) at the end, indicating how confident you are in your conclusion\nnext_steps:  Recommend next steps to complete the transaction\nsummary_report: short summary on how the transaction moved in the systems what contributed most to your conclusion\nrecords: return all records system and the records in json wrapped in \x7b\x7d\n\ndo not output python code\n\n".data))))))))) := by
  simp [prompt_text, List.append_assoc]

set_option maxRecDepth 1000000 in
/-- Claim C8: with the mobile-money and disbursement rows absent, each
absent slot of the evidence bundle is set to the literal `"N/A"` marker, and
— as long as the transaction id and the two present row renderings contain
no `"N/A"` themselves — the built prompt contains the literal `"N/A"`
exactly twice. -/
theorem c8_absent_ledgers_na_twice (txn cbs switch : String)
    (htxn : countOcc "N/A".data txn.data = 0)
    (hcbs : countOcc "N/A".data cbs.data = 0)
    (hsw : countOcc "N/A".data switch.data = 0) :
    evidenceArg none = "N/A" ∧
    countOcc "N/A".data
      (prompt_text txn cbs (evidenceArg none) switch (evidenceArg none)).data = 2 := by
  refine ⟨rfl, ?_⟩
  rw [show evidenceArg none = "N/A" from rfl]
  rw [prompt_data txn cbs "N/A" switch "N/A"]
  rw [countOcc_append _ _ _ (spanSafe_na _ _ (by decide) (by decide))]
  rw [countOcc_append _ _ _ (spanSafe_nl txn.data _ _ (by rfl))]
  rw [countOcc_append _ _ _ (spanSafe_na _ _ (by decide) (by decide))]
  rw [countOcc_append _ _ _ (spanSafe_nl cbs.data _ _ (by rfl))]
  rw [countOcc_append _ _ _ (spanSafe_na _ _ (by decide) (by decide))]
  rw [countOcc_append _ _ _ (spanSafe_na _ _ (by decide) (by decide))]
  rw [countOcc_append _ _ _ (spanSafe_na _ _ (by decide) (by decide))]
  rw [countOcc_append _ _ _ (spanSafe_nl switch.data _ _ (by rfl))]
  rw [countOcc_append _ _ _ (spanSafe_na _ _ (by decide) (by decide))]
  rw [countOcc_append _ _ _ (spanSafe_na _ _ (by decide) (by decide))]
  rw [htxn, hcbs, hsw]
  decide

/-! ### Claim C6 -/

/-- Case-sensitive twin of `ciPrefixB_false_of_colon`: a pattern containing
a colon never matches at the start of `s ++ '\n' :: u` when `s` is
colon-free and the pattern is newline-free. -/
theorem isPrefixOf_false_of_colon : ∀ (f s u : List Char), ':' ∈ f →
    (∀ c ∈ f, c.toNat ≠ 10) → (∀ c ∈ s, c.toNat ≠ 58) →
    List.isPrefixOf f (s ++ '\n' :: u) = false
  | [], _, _, hc, _, _ => absurd hc (List.not_mem_nil ':')
  | a :: f', [], u, _, hnl, _ => by
    have h : (a == '\n') = false :=
      char_beq_eq_false a '\n' (hnl a (List.mem_cons_self a f'))
    simp [List.isPrefixOf, h]
  | a :: f', b :: s', u, hc, hnl, hs => by
    rcases List.mem_cons.mp hc with h1 | h2
    · have h : (a == b) = false := by
        rw [← h1]
        exact char_beq_eq_false ':' b (Ne.symm (hs b (List.mem_cons_self b s')))
      simp [List.isPrefixOf, h]
    · have h := isPrefixOf_false_of_colon f' s' u h2
        (fun c hcf => hnl c (List.mem_cons_of_mem a hcf))
        (fun c hcs => hs c (List.mem_cons_of_mem b hcs))
      simp [List.isPrefixOf, h]

/-- The replacement scanner copies a character at which the pattern does
not match. -/
theorem pyGo_skip_char (f repl : List Char) (c : Char) (rest : List Char)
    (h : List.isPrefixOf f (c :: rest) = false) :
    pyReplaceGo f repl 0 (c :: rest) = c :: pyReplaceGo f repl 0 rest := by
  have hneg : ¬ (List.isPrefixOf f (c :: rest) = true) := by
    rw [h]
    exact Bool.false_ne_true
  simp only [pyReplaceGo]
  rw [if_neg hneg]

/-- The replacement scanner for a colon-bearing, newline-free phrase copies
a colon-free body and the newline ending its line. -/
theorem pyGo_skip_colon_body (f repl : List Char) (hc : ':' ∈ f)
    (hnl : ∀ c ∈ f, c.toNat ≠ 10) :
    ∀ (s u : List Char), (∀ c ∈ s, c.toNat ≠ 58) →
      pyReplaceGo f repl 0 (s ++ '\n' :: u) =
        s ++ '\n' :: pyReplaceGo f repl 0 u
  | [], u, _ => by
    obtain ⟨a, f', rfl⟩ : ∃ a f', f = a :: f' := by
      cases f with
      | nil => exact absurd hc (List.not_mem_nil ':')
      | cons a f' => exact ⟨a, f', rfl⟩
    have hb : (a == '\n') = false :=
      char_beq_eq_false a '\n' (hnl a (List.mem_cons_self a f'))
    have h : List.isPrefixOf (a :: f') ('\n' :: u) = false := by
      simp [List.isPrefixOf, hb]
    show pyReplaceGo (a :: f') repl 0 ('\n' :: u) = '\n' :: pyReplaceGo (a :: f') repl 0 u
    exact pyGo_skip_char _ repl '\n' u h
  | b :: s', u, hs => by
    have h := isPrefixOf_false_of_colon f (b :: s') u hc hnl hs
    rw [List.cons_append] at h
    rw [List.cons_append, pyGo_skip_char f repl b _ h]
    rw [pyGo_skip_colon_body f repl hc hnl s' u
      (fun c hcs => hs c (List.mem_cons_of_mem b hcs))]
    rw [List.cons_append]

/-- The replacement scanner for the code fence copies any backtick-free
run. -/
theorem tickGo_skip (repl : List Char) : ∀ (s u : List Char),
    (∀ c ∈ s, c.toNat ≠ 96) →
    pyReplaceGo "```".data repl 0 (s ++ u) = s ++ pyReplaceGo "```".data repl 0 u
  | [], _, _ => by simp
  | c :: s', u, hs => by
    have hcc : ('`' == c) = false :=
      char_beq_eq_false '`' c (Ne.symm (hs c (List.mem_cons_self c s')))
    have h : List.isPrefixOf "```".data (c :: (s' ++ u)) = false := by
      simp [List.isPrefixOf, hcc]
    rw [List.cons_append, pyGo_skip_char _ repl c _ h]
    rw [tickGo_skip repl s' u (fun c hcs => hs c (List.mem_cons_of_mem _ hcs))]
    rw [List.cons_append]

/-- Fence stripping passes over a lone newline. -/
theorem tickGo_cons_nl (repl u : List Char) :
    pyReplaceGo "```".data repl 0 ('\n' :: u) =
      '\n' :: pyReplaceGo "```".data repl 0 u := rfl

/-- Fence stripping removes the harness around the reply and keeps the rest
for scanning. -/
theorem tickPreamble (X : List Char) :
    pyReplaceGo "```".data [] 0 ("output:\nHere is the solution:\n```\n".data ++ X) =
      "output:\nHere is the solution:\n".data ++
        ('\n' :: pyReplaceGo "```".data [] 0 X) := rfl

/-- Fence stripping consumes the closing fence. -/
theorem tickEnd :
    pyReplaceGo "```".data [] 0 ('\n' :: '`' :: '`' :: '`' :: []) = ['\n'] := rfl

/-- Preamble stripping removes the leading `output:` and copies the rest of
the noise prefix. -/
theorem outPreamble (Y : List Char) :
    pyReplaceGo "output:".data [] 0
        ("output:\nHere is the solution:\n".data ++ ('\n' :: Y)) =
      "\nHere is the solution:\n".data ++
        ('\n' :: pyReplaceGo "output:".data [] 0 Y) := rfl

/-- Preamble stripping removes the `Here is the solution:` phrase. -/
theorem herePreamble (Y : List Char) :
    pyReplaceGo "Here is the solution:".data [] 0
        ("\nHere is the solution:\n".data ++ ('\n' :: Y)) =
      '\n' :: '\n' :: '\n' :: pyReplaceGo "Here is the solution:".data [] 0 Y := rfl

/-! Skipping one label header while scanning for a noise phrase: the phrase
mismatches at every position of the header. -/

theorem outSkip_rc (X : List Char) : pyReplaceGo "output:".data [] 0 (rcL ++ X) =
    rcL ++ pyReplaceGo "output:".data [] 0 X := rfl

theorem outSkip_cs (X : List Char) : pyReplaceGo "output:".data [] 0 (csL ++ X) =
    csL ++ pyReplaceGo "output:".data [] 0 X := rfl

theorem outSkip_ns (X : List Char) : pyReplaceGo "output:".data [] 0 (nsL ++ X) =
    nsL ++ pyReplaceGo "output:".data [] 0 X := rfl

theorem outSkip_sr (X : List Char) : pyReplaceGo "output:".data [] 0 (srL ++ X) =
    srL ++ pyReplaceGo "output:".data [] 0 X := rfl

theorem outSkip_re (X : List Char) : pyReplaceGo "output:".data [] 0 (reL ++ X) =
    reL ++ pyReplaceGo "output:".data [] 0 X := rfl

theorem hereSkip_rc (X : List Char) :
    pyReplaceGo "Here is the solution:".data [] 0 (rcL ++ X) =
      rcL ++ pyReplaceGo "Here is the solution:".data [] 0 X := rfl

theorem hereSkip_cs (X : List Char) :
    pyReplaceGo "Here is the solution:".data [] 0 (csL ++ X) =
      csL ++ pyReplaceGo "Here is the solution:".data [] 0 X := rfl

theorem hereSkip_ns (X : List Char) :
    pyReplaceGo "Here is the solution:".data [] 0 (nsL ++ X) =
      nsL ++ pyReplaceGo "Here is the solution:".data [] 0 X := rfl

theorem hereSkip_sr (X : List Char) :
    pyReplaceGo "Here is the solution:".data [] 0 (srL ++ X) =
      srL ++ pyReplaceGo "Here is the solution:".data [] 0 X := rfl

theorem hereSkip_re (X : List Char) :
    pyReplaceGo "Here is the solution:".data [] 0 (reL ++ X) =
      reL ++ pyReplaceGo "Here is the solution:".data [] 0 X := rfl

/-- Appending the final newline to a well-formed reply reshapes as a reply
with a newline tail. -/
theorem mkReplyT_append_nl (s1 s2 s3 s4 s5 : List Char) :
    mkReplyT s1 s2 s3 s4 s5 [] ++ ['\n'] = mkReplyT s1 s2 s3 s4 s5 ['\n'] := by
  simp [mkReplyT, List.append_assoc]

/-- Stripping the output preamble leaves a well-formed reply unchanged: its
only colons sit at the ends of the label tokens, where the phrase cannot
match. -/
theorem outGo_mkReplyT (s1 s2 s3 s4 s5 : List Char) (h1 : bodyOK s1)
    (h2 : bodyOK s2) (h3 : bodyOK s3) (h4 : bodyOK s4) (h5 : bodyOK s5) :
    pyReplaceGo "output:".data [] 0 (mkReplyT s1 s2 s3 s4 s5 ['\n']) =
      mkReplyT s1 s2 s3 s4 s5 ['\n'] := by
  unfold mkReplyT
  rw [outSkip_rc,
    pyGo_skip_colon_body _ _ (by decide) (by decide) s1 _ (fun c hc => (h1 c hc).2),
    outSkip_cs,
    pyGo_skip_colon_body _ _ (by decide) (by decide) s2 _ (fun c hc => (h2 c hc).2),
    outSkip_ns,
    pyGo_skip_colon_body _ _ (by decide) (by decide) s3 _ (fun c hc => (h3 c hc).2),
    outSkip_sr,
    pyGo_skip_colon_body _ _ (by decide) (by decide) s4 _ (fun c hc => (h4 c hc).2),
    outSkip_re,
    pyGo_skip_colon_body _ _ (by decide) (by decide) s5 _ (fun c hc => (h5 c hc).2)]
  rfl

/-- Stripping the solution preamble leaves a well-formed reply
unchanged. -/
theorem hereGo_mkReplyT (s1 s2 s3 s4 s5 : List Char) (h1 : bodyOK s1)
    (h2 : bodyOK s2) (h3 : bodyOK s3) (h4 : bodyOK s4) (h5 : bodyOK s5) :
    pyReplaceGo "Here is the solution:".data [] 0 (mkReplyT s1 s2 s3 s4 s5 ['\n']) =
      mkReplyT s1 s2 s3 s4 s5 ['\n'] := by
  unfold mkReplyT
  rw [hereSkip_rc,
    pyGo_skip_colon_body _ _ (by decide) (by decide) s1 _ (fun c hc => (h1 c hc).2),
    hereSkip_cs,
    pyGo_skip_colon_body _ _ (by decide) (by decide) s2 _ (fun c hc => (h2 c hc).2),
    hereSkip_ns,
    pyGo_skip_colon_body _ _ (by decide) (by decide) s3 _ (fun c hc => (h3 c hc).2),
    hereSkip_sr,
    pyGo_skip_colon_body _ _ (by decide) (by decide) s4 _ (fun c hc => (h4 c hc).2),
    hereSkip_re,
    pyGo_skip_colon_body _ _ (by decide) (by decide) s5 _ (fun c hc => (h5 c hc).2)]
  rfl

/-- Fence stripping leaves a well-formed reply with backtick-free bodies
unchanged. -/
theorem tickGo_mkReplyT (s1 s2 s3 s4 s5 : List Char) (ht1 : tickFree s1)
    (ht2 : tickFree s2) (ht3 : tickFree s3) (ht4 : tickFree s4)
    (ht5 : tickFree s5) :
    ∀ u : List Char, pyReplaceGo "```".data [] 0 (mkReplyT s1 s2 s3 s4 s5 [] ++ u) =
      mkReplyT s1 s2 s3 s4 s5 [] ++ pyReplaceGo "```".data [] 0 u := by
  intro u
  unfold mkReplyT
  simp only [List.append_assoc, List.cons_append, List.nil_append]
  rw [tickGo_skip _ rcL _ (by decide), tickGo_skip _ s1 _ ht1, tickGo_cons_nl,
    tickGo_skip _ csL _ (by decide), tickGo_skip _ s2 _ ht2, tickGo_cons_nl,
    tickGo_skip _ nsL _ (by decide), tickGo_skip _ s3 _ ht3, tickGo_cons_nl,
    tickGo_skip _ srL _ (by decide), tickGo_skip _ s4 _ ht4, tickGo_cons_nl,
    tickGo_skip _ reL _ (by decide), tickGo_skip _ s5 _ ht5]

/-- String-level append distributes over the character lists. -/
theorem str_data_append (a b : String) : (a ++ b).data = a.data ++ b.data := rfl

/-- Normalization of a noise-wrapped well-formed reply: the fences and both
preamble phrases are removed completely, leaving the reply padded by three
newlines and a trailing newline. -/
theorem normalizeReply_wrap (s1 s2 s3 s4 s5 : List Char)
    (h1 : bodyOK s1) (h2 : bodyOK s2) (h3 : bodyOK s3) (h4 : bodyOK s4)
    (h5 : bodyOK s5) (ht1 : tickFree s1) (ht2 : tickFree s2)
    (ht3 : tickFree s3) (ht4 : tickFree s4) (ht5 : tickFree s5) :
    (normalizeReply (wrapNoise (mkReplyStr s1 s2 s3 s4 s5))).data =
      ['\n', '\n', '\n'] ++ mkReplyT s1 s2 s3 s4 s5 ['\n'] := by
  have e0 : (wrapNoise (mkReplyStr s1 s2 s3 s4 s5)).data =
      "output:\nHere is the solution:\n```\n".data ++
        (mkReplyT s1 s2 s3 s4 s5 [] ++ ('\n' :: '`' :: '`' :: '`' :: [])) := by
    show ("output:\nHere is the solution:\n```\n" ++ mkReplyStr s1 s2 s3 s4 s5 ++
      "\n```").data = _
    rw [str_data_append, str_data_append]
    rw [show (mkReplyStr s1 s2 s3 s4 s5).data = mkReplyT s1 s2 s3 s4 s5 [] from rfl]
    rw [show ("\n```" : String).data = '\n' :: '`' :: '`' :: '`' :: [] from rfl]
    rw [List.append_assoc]
  have step1 : pyReplaceGo "```".data [] 0
      (wrapNoise (mkReplyStr s1 s2 s3 s4 s5)).data =
      "output:\nHere is the solution:\n".data ++
        ('\n' :: (mkReplyT s1 s2 s3 s4 s5 [] ++ ['\n'])) := by
    rw [e0, tickPreamble, tickGo_mkReplyT s1 s2 s3 s4 s5 ht1 ht2 ht3 ht4 ht5, tickEnd]
  have step2 : pyReplaceGo "output:".data [] 0
      ("output:\nHere is the solution:\n".data ++
        ('\n' :: (mkReplyT s1 s2 s3 s4 s5 [] ++ ['\n']))) =
      "\nHere is the solution:\n".data ++ ('\n' :: mkReplyT s1 s2 s3 s4 s5 ['\n']) := by
    rw [outPreamble, mkReplyT_append_nl, outGo_mkReplyT s1 s2 s3 s4 s5 h1 h2 h3 h4 h5]
  have step3 : pyReplaceGo "Here is the solution:".data [] 0
      ("\nHere is the solution:\n".data ++
        ('\n' :: mkReplyT s1 s2 s3 s4 s5 ['\n'])) =
      '\n' :: '\n' :: '\n' :: mkReplyT s1 s2 s3 s4 s5 ['\n'] := by
    rw [herePreamble, hereGo_mkReplyT s1 s2 s3 s4 s5 h1 h2 h3 h4 h5]
  show pyReplaceGo "Here is the solution:".data [] 0
      (pyReplaceGo "output:".data [] 0
        (pyReplaceGo "```".data [] 0 (wrapNoise (mkReplyStr s1 s2 s3 s4 s5)).data)) = _
  rw [step1, step2, step3]
  rfl

/-- Claim C6: wrapping a well-formed reply in the known noise markers (the
`output:` and `Here is the solution:` preambles and a code fence) and then
normalizing removes the markers completely, so extraction of each of the
five labels agrees with extraction from the unwrapped reply. -/
theorem c6_noise_markers_roundtrip (s1 s2 s3 s4 s5 : List Char)
    (h1 : bodyOK s1) (h2 : bodyOK s2) (h3 : bodyOK s3) (h4 : bodyOK s4)
    (h5 : bodyOK s5) (ht1 : tickFree s1) (ht2 : tickFree s2)
    (ht3 : tickFree s3) (ht4 : tickFree s4) (ht5 : tickFree s5) :
    extract_section "root_cause" (normalizeReply (wrapNoise (mkReplyStr s1 s2 s3 s4 s5))) =
      extract_section "root_cause" (mkReplyStr s1 s2 s3 s4 s5) ∧
    extract_section "confidence_score" (normalizeReply (wrapNoise (mkReplyStr s1 s2 s3 s4 s5))) =
      extract_section "confidence_score" (mkReplyStr s1 s2 s3 s4 s5) ∧
    extract_section "next_steps" (normalizeReply (wrapNoise (mkReplyStr s1 s2 s3 s4 s5))) =
      extract_section "next_steps" (mkReplyStr s1 s2 s3 s4 s5) ∧
    extract_section "summary_report" (normalizeReply (wrapNoise (mkReplyStr s1 s2 s3 s4 s5))) =
      extract_section "summary_report" (mkReplyStr s1 s2 s3 s4 s5) ∧
    extract_section "records" (normalizeReply (wrapNoise (mkReplyStr s1 s2 s3 s4 s5))) =
      extract_section "records" (mkReplyStr s1 s2 s3 s4 s5) := by
  have hnorm : normalizeReply (wrapNoise (mkReplyStr s1 s2 s3 s4 s5)) =
      ⟨['\n', '\n', '\n'] ++ mkReplyT s1 s2 s3 s4 s5 ['\n']⟩ := by
    rw [← normalizeReply_wrap s1 s2 s3 s4 s5 h1 h2 h3 h4 h5 ht1 ht2 ht3 ht4 ht5]
  have eplain : mkReplyStr s1 s2 s3 s4 s5 =
      ⟨([] : List Char) ++ mkReplyT s1 s2 s3 s4 s5 []⟩ := rfl
  have hol1 := fun c hc => (h1 c hc).1
  have hol2 := fun c hc => (h2 c hc).1
  have hol3 := fun c hc => (h3 c hc).1
  have hol4 := fun c hc => (h4 c hc).1
  have hol5 := fun c hc => (h5 c hc).1
  have hpad : ∀ c ∈ (['\n', '\n', '\n'] : List Char), c.toNat = 10 := by decide
  have hpad0 : ∀ c ∈ ([] : List Char), c.toNat = 10 := by simp
  rw [hnorm, eplain]
  refine ⟨?_, ?_, ?_, ?_, ?_⟩
  · rw [extract_shape_rc _ s1 s2 s3 s4 s5 _ hpad hol1,
      extract_shape_rc _ s1 s2 s3 s4 s5 _ hpad0 hol1]
  · rw [extract_shape_cs _ s1 s2 s3 s4 s5 _ hpad h1 hol2,
      extract_shape_cs _ s1 s2 s3 s4 s5 _ hpad0 h1 hol2]
  · rw [extract_shape_ns _ s1 s2 s3 s4 s5 _ hpad h1 h2 hol3,
      extract_shape_ns _ s1 s2 s3 s4 s5 _ hpad0 h1 h2 hol3]
  · rw [extract_shape_sr _ s1 s2 s3 s4 s5 _ hpad h1 h2 h3 hol4,
      extract_shape_sr _ s1 s2 s3 s4 s5 _ hpad0 h1 h2 h3 hol4]
  · rw [extract_shape_re _ s1 s2 s3 s4 s5 _ hpad h1 h2 h3 h4 hol5 (Or.inr rfl),
      extract_shape_re _ s1 s2 s3 s4 s5 _ hpad0 h1 h2 h3 h4 hol5 (Or.inl rfl)]

/-- Concrete instance of claim C6. -/
theorem c6_witness :
    extract_section "root_cause"
      (normalizeReply (wrapNoise (mkReplyStr " late posting".data " 70%".data
        " retry".data " stuck at switch".data " none".data))) = "late posting" ∧
    extract_section "records"
      (normalizeReply (wrapNoise (mkReplyStr " late posting".data " 70%".data
        " retry".data " stuck at switch".data " none".data))) = "none" := by
  have h := c6_noise_markers_roundtrip " late posting".data " 70%".data
    " retry".data " stuck at switch".data " none".data
    (by decide) (by decide) (by decide) (by decide) (by decide)
    (by decide) (by decide) (by decide) (by decide) (by decide)
  constructor
  · rw [h.1]
    decide
  · rw [h.2.2.2.2]
    decide

/-- Concrete instance of claim C8, on the scenario rows of the
specification. -/
theorem c8_witness :
    evidenceArg none = "N/A" ∧
    countOcc "N/A".data
      (prompt_text "TXN1" "\x7b\x27txn_id\x27\x3a \x27TXN1\x27, \x27amount\x27\x3a 100\x7d"
        (evidenceArg none) "\x7b\x27txn_id\x27\x3a \x27TXN1\x27, \x27status\x27\x3a \x27ok\x27\x7d"
        (evidenceArg none)).data = 2 :=
  c8_absent_ledgers_na_twice "TXN1"
    "\x7b\x27txn_id\x27\x3a \x27TXN1\x27, \x27amount\x27\x3a 100\x7d"
    "\x7b\x27txn_id\x27\x3a \x27TXN1\x27, \x27status\x27\x3a \x27ok\x27\x7d"
    (by decide) (by decide) (by decide)

end OpsAgent
